import Mathlib

/-!
Shallow embedding of the syncthing configuration core
(`src/cmd/syncthing/usage.go`, package `config`) and of the protocol
wire-format decorator (`src/internal/protocol/wireformat.go`),
together with theorems settling the claims about them.

Modelling conventions, used throughout:

* `protocol.DeviceID` is a fixed-length binary identity with a total
  order (`Compare`/`Equals`); it is modeled as `Nat`, with the order and
  equality of `Nat`.
* Go slices are modeled as `List`s.  A nil slice and an empty slice
  behave identically in every slice operation this file embeds
  (`len`, `range`, append, indexing), with one exception:
  `fillNilSlices` tests a slice for nil-ness, so the one field it acts
  on (`OptionsConfiguration.ListenAddress`) is modeled as
  `Option (List String)` (`none` = nil slice).  Other nil-slice
  normalizations in the source (e.g. in `convertV4V5` and `prepare`)
  only replace nil with empty and are no-ops under the `List` model;
  they are noted where they occur.
* Go maps used for membership tests and deduplication are modeled as
  lists with membership tests.  Go map iteration order is unspecified;
  wherever the source ranges over a map, this file either iterates in
  first-insertion order (noted locally) or the result is
  order-independent.
* `sort.Sort` (an unspecified, unstable sorting algorithm) is modeled
  as `List.insertionSort`; only the fact that sorting permutes the list
  is used in the theorems below.
* External effectful collaborators (`os.Hostname`, `bcrypt`, the file
  system, the event bus) are modeled as explicit parameters or as
  explicit outcome environments.
-/

namespace Syncthing

/-- `protocol.DeviceID`, modeled as a natural number (see header). -/
abbrev DeviceID := Nat

/-- `config.VersioningConfiguration` (usage.go lines 110-113).  The Go
`Params` map is modeled as an association list; no code embedded here
reads it, it only participates in structural equality. -/
structure VersioningConfiguration where
  Type_ : String
  Params : List (String × String)
deriving DecidableEq, Inhabited

/-- `config.FolderDeviceConfiguration` (usage.go lines 169-174). -/
structure FolderDeviceConfiguration where
  deviceID : DeviceID
  Deprecated_Name : String
  Deprecated_Addresses : List String
deriving DecidableEq, Inhabited

/-- `config.DeviceConfiguration` (usage.go lines 160-167). -/
structure DeviceConfiguration where
  deviceID : DeviceID
  Name : String
  Addresses : List String
  Compression : Bool
  CertName : String
  Introducer : Bool
deriving DecidableEq, Inhabited

/-- `config.FolderConfiguration` (usage.go lines 94-108).  The
unexported `deviceIDs` memo field is omitted: it is only written by the
`DeviceIDs()` accessor, which none of the embedded code calls. -/
structure FolderConfiguration where
  ID : String
  Path : String
  Devices : List FolderDeviceConfiguration
  ReadOnly : Bool
  RescanIntervalS : Int
  IgnorePerms : Bool
  Invalid : String
  Versioning : VersioningConfiguration
  Deprecated_Directory : String
  Deprecated_Nodes : List FolderDeviceConfiguration
deriving DecidableEq, Inhabited

/-- `config.OptionsConfiguration` (usage.go lines 176-200).
`ListenAddress` is `Option (List String)` because `fillNilSlices`
distinguishes a nil slice from an empty one on this field. -/
structure OptionsConfiguration where
  ListenAddress : Option (List String)
  GlobalAnnServer : String
  GlobalAnnEnabled : Bool
  LocalAnnEnabled : Bool
  LocalAnnPort : Int
  LocalAnnMCAddr : String
  MaxSendKbps : Int
  MaxRecvKbps : Int
  ReconnectIntervalS : Int
  StartBrowser : Bool
  UPnPEnabled : Bool
  UPnPLease : Int
  UPnPRenewal : Int
  URAccepted : Int
  RestartOnWakeup : Bool
  AutoUpgradeIntervalH : Int
  Deprecated_RescanIntervalS : Int
  Deprecated_UREnabled : Bool
  Deprecated_URDeclined : Bool
  Deprecated_ReadOnly : Bool
  Deprecated_GUIEnabled : Bool
  Deprecated_GUIAddress : String
deriving DecidableEq, Inhabited

/-- `config.GUIConfiguration` (usage.go lines 202-209). -/
structure GUIConfiguration where
  Enabled : Bool
  Address : String
  User : String
  Password : String
  UseTLS : Bool
  APIKey : String
deriving DecidableEq, Inhabited

/-- `config.Configuration` (usage.go lines 81-92).  `XMLName` is XML
decoder machinery and is omitted. -/
structure Configuration where
  Location : String
  Version : Int
  Folders : List FolderConfiguration
  Devices : List DeviceConfiguration
  GUI : GUIConfiguration
  Options : OptionsConfiguration
  Deprecated_Repositories : List FolderConfiguration
  Deprecated_Nodes : List DeviceConfiguration
deriving DecidableEq, Inhabited

/-- `Configuration.GetDeviceConfiguration` (usage.go lines 219-226):
returns the first root device entry with the given id, if any (the
source returns a pointer into the slice, or nil). -/
def GetDeviceConfiguration (cfg : Configuration) (deviceID : DeviceID) :
    Option DeviceConfiguration :=
  cfg.Devices.find? (fun d => d.deviceID == deviceID)

/-- `uniqueStrings` (usage.go lines 342-354): deduplication through a
Go map.  Map iteration order is unspecified in Go; modeled as
first-occurrence order.  No embedded claim depends on the order. -/
def uniqueStrings (ss : List String) : List String :=
  ss.foldl (fun us s => if s ∈ us then us else us ++ [s]) []

/-- `fillNilSlices` (usage.go lines 283-304) specialized to its one
effective field: among the fields carrying a `default` tag, only
`OptionsConfiguration.ListenAddress` (tag `default:"0.0.0.0:22000"`)
has type `[]string`; it is seeded with the single default value iff the
slice is still nil. -/
def fillNilSlices (o : OptionsConfiguration) : OptionsConfiguration :=
  match o.ListenAddress with
  | none => { o with ListenAddress := some ["0.0.0.0:22000"] }
  | some _ => o

/-- Ascending sort of the root device list by device id:
`sort.Sort(DeviceConfigurationList(...))` with `Less` comparing
`DeviceID` (usage.go lines 641-651).  Modeled as insertion sort; only
the permutation property is used. -/
def sortDeviceConfigurations (l : List DeviceConfiguration) :
    List DeviceConfiguration :=
  List.insertionSort (fun a b => a.deviceID ≤ b.deviceID) l

/-- Ascending sort of a folder's membership list by device id:
`sort.Sort(FolderDeviceConfigurationList(...))` (usage.go lines
653-663).  Modeled as insertion sort; only the permutation property is
used. -/
def sortFolderDeviceConfigurations (l : List FolderDeviceConfiguration) :
    List FolderDeviceConfiguration :=
  List.insertionSort (fun a b => a.deviceID ≤ b.deviceID) l

/-- `ensureDevicePresent` (usage.go lines 665-677): if no membership
edge references `myID`, append one (all other fields zero). -/
def ensureDevicePresent (devices : List FolderDeviceConfiguration)
    (myID : DeviceID) : List FolderDeviceConfiguration :=
  if devices.any (fun d => d.deviceID == myID) then
    devices
  else
    devices ++ [{ deviceID := myID, Deprecated_Name := "",
                  Deprecated_Addresses := [] }]

/-- The loop of `ensureExistingDevices` (usage.go lines 679-692): a
swap-with-last in-place filter.  While `i < count`: if the edge at `i`
references an id outside `existing`, overwrite position `i` with the
element at `count-1` and shrink `count`; otherwise advance `i`.
Finally the slice is truncated to `count` (`devices[0:count]`).

Every iteration of the Go loop decreases `count - i` by exactly one, so
the loop is embedded by structural recursion on a `fuel` argument that
the wrapper instantiates with `count - i`; the fuel runs out exactly
when `i ≥ count`, where the loop exits with `devices[0:count]`, which
is also the out-of-fuel result. -/
def ensureExistingLoop (existing : List DeviceID) :
    Nat → List FolderDeviceConfiguration → Nat → Nat →
      List FolderDeviceConfiguration
  | 0, devices, _, count => devices.take count
  | fuel + 1, devices, i, count =>
      if i < count then
        if (devices.getD i default).deviceID ∈ existing then
          ensureExistingLoop existing fuel devices (i + 1) count
        else
          ensureExistingLoop existing fuel
            (devices.set i (devices.getD (count - 1) default)) i
            (count - 1)
      else
        devices.take count

/-- `ensureExistingDevices` (usage.go lines 679-692).  The Go
`existingDevices` map is modeled as a list of ids with membership. -/
def ensureExistingDevices (devices : List FolderDeviceConfiguration)
    (existingDevices : List DeviceID) : List FolderDeviceConfiguration :=
  ensureExistingLoop existingDevices devices.length devices 0
    devices.length

/-- The loop of `ensureNoDuplicates` (usage.go lines 694-710): same
swap-with-last scheme, removing an edge whose id was already seen and
recording first-seen ids in `seenDevices`.  Fuel as in
`ensureExistingLoop`. -/
def ensureNoDuplicatesLoop :
    Nat → List FolderDeviceConfiguration → List DeviceID → Nat → Nat →
      List FolderDeviceConfiguration
  | 0, devices, _, _, count => devices.take count
  | fuel + 1, devices, seenDevices, i, count =>
      if i < count then
        let id := (devices.getD i default).deviceID
        if id ∈ seenDevices then
          ensureNoDuplicatesLoop fuel
            (devices.set i (devices.getD (count - 1) default))
            seenDevices i (count - 1)
        else
          ensureNoDuplicatesLoop fuel devices (id :: seenDevices) (i + 1)
            count
      else
        devices.take count

/-- `ensureNoDuplicates` (usage.go lines 694-710). -/
def ensureNoDuplicates (devices : List FolderDeviceConfiguration) :
    List FolderDeviceConfiguration :=
  ensureNoDuplicatesLoop devices.length devices [] 0 devices.length

/-- First-occurrence collection of the folder-embedded device records of
all repositories, one per device id: the `devices` map of `convertV1V2`
(usage.go lines 609-619).  The Go map is keyed by `DeviceID.String()`,
which is injective, so keying by the id itself is equivalent.  The map
is later ranged over in unspecified order and the result immediately
sorted by id (ids here are unique), so first-encounter order is an
admissible model. -/
def collectV1Devices (repos : List FolderConfiguration) :
    List FolderDeviceConfiguration :=
  repos.foldl
    (fun acc r =>
      r.Deprecated_Nodes.foldl
        (fun acc n =>
          if acc.any (fun m => m.deviceID == n.deviceID) then acc
          else acc ++ [n])
        acc)
    []

/-- `convertV1V2` (usage.go lines 604-639): flatten folder-embedded
device records into the root (deprecated) node list, set all
repositories read-only per the global flag, replace embedded records
with id-only references, move GUI fields, set version 2. -/
def convertV1V2 (cfg : Configuration) : Configuration :=
  let devices := collectV1Devices cfg.Deprecated_Repositories
  let cfg : Configuration :=
    { cfg with
      Deprecated_Repositories :=
        cfg.Deprecated_Repositories.map (fun r =>
          { r with
            ReadOnly := cfg.Options.Deprecated_ReadOnly
            Deprecated_Nodes :=
              r.Deprecated_Nodes.map (fun n =>
                { deviceID := n.deviceID, Deprecated_Name := "",
                  Deprecated_Addresses := [] }) }) }
  let cfg : Configuration :=
    { cfg with
      Options := { cfg.Options with Deprecated_ReadOnly := false }
      Deprecated_Nodes :=
        sortDeviceConfigurations
          (cfg.Deprecated_Nodes ++
            devices.map (fun d =>
              { deviceID := d.deviceID, Name := d.Deprecated_Name,
                Addresses := d.Deprecated_Addresses, Compression := false,
                CertName := "", Introducer := false })) }
  { cfg with
    GUI := { cfg.GUI with
             Address := cfg.Options.Deprecated_GUIAddress
             Enabled := cfg.Options.Deprecated_GUIEnabled }
    Options := { cfg.Options with
                 Deprecated_GUIEnabled := false
                 Deprecated_GUIAddress := "" }
    Version := 2 }

/-- `convertV2V3` (usage.go lines 587-602): enable compression on every
deprecated node; exact-literal rewrite of the legacy announce server;
set version 3. -/
def convertV2V3 (cfg : Configuration) : Configuration :=
  let cfg : Configuration :=
    { cfg with
      Deprecated_Nodes :=
        cfg.Deprecated_Nodes.map (fun n => { n with Compression := true }) }
  let cfg : Configuration :=
    if cfg.Options.GlobalAnnServer = "announce.syncthing.net:22025" then
      { cfg with
        Options := { cfg.Options with
                     GlobalAnnServer := "announce.syncthing.net:22026" } }
    else cfg
  { cfg with Version := 3 }

/-- `convertV3V4` (usage.go lines 562-585): copy the node-wide rescan
interval into every repository, then zero the node-wide field; set
version 4.

The source's second loop (lines 575-582) binds each folder-embedded
device record to the local variable `rncfg` BY VALUE
(`rncfg := cfg.Deprecated_Repositories[i].Deprecated_Nodes[j]` copies
the struct), clears `Deprecated_Name`/`Deprecated_Addresses` on that
copy, and then discards the copy.  It therefore has no effect on `cfg`,
and the embedding reflects that: the repositories' `Deprecated_Nodes`
are left unchanged. -/
def convertV3V4 (cfg : Configuration) : Configuration :=
  let cfg : Configuration :=
    { cfg with
      Deprecated_Repositories :=
        cfg.Deprecated_Repositories.map (fun r =>
          { r with
            RescanIntervalS := cfg.Options.Deprecated_RescanIntervalS }) }
  let cfg : Configuration :=
    { cfg with
      Options := { cfg.Options with Deprecated_RescanIntervalS := 0 } }
  { cfg with Version := 4 }

/-- `convertV4V5` (usage.go lines 536-560): move the deprecated node and
repository collections to their current names, move the per-folder
directory field, clear the deprecated fields, set version 5.  The two
leading nil checks replace a nil slice with an empty one and are no-ops
under the `List` model. -/
def convertV4V5 (cfg : Configuration) : Configuration :=
  let cfg : Configuration :=
    { cfg with
      Devices := cfg.Deprecated_Nodes
      Folders := cfg.Deprecated_Repositories }
  let cfg : Configuration :=
    { cfg with
      Folders :=
        cfg.Folders.map (fun f =>
          { f with
            Path := f.Deprecated_Directory
            Deprecated_Directory := ""
            Devices := f.Deprecated_Nodes
            Deprecated_Nodes := [] }) }
  { cfg with
    Deprecated_Nodes := []
    Deprecated_Repositories := []
    Version := 5 }

/-- The migration driver inside `prepare` (usage.go lines 403-421):
four guarded steps, each applied exactly when the document's version
equals the step's source version, each setting the version to its
target. -/
def runMigrations (cfg : Configuration) : Configuration :=
  let cfg : Configuration := if cfg.Version = 1 then convertV1V2 cfg else cfg
  let cfg : Configuration := if cfg.Version = 2 then convertV2V3 cfg else cfg
  let cfg : Configuration := if cfg.Version = 3 then convertV3V4 cfg else cfg
  if cfg.Version = 4 then convertV4V5 cfg else cfg

/-- The folder-id consistency pass of `prepare` (usage.go lines
366-395).  The Go loop takes a pointer `folder := &cfg.Folders[i]`;
mutations through it are modeled by `List.set` at index `i`.  The
`seenFolders` map stores pointers to folders; it is modeled as an
association list from the claimed id to the index of the claiming
folder (so that later mutations through the stored pointer reach the
list).  As in the source, the map entry keeps the ORIGINAL key even if
the stored folder's id is later rewritten, and a folder that collides
is not entered into the map. -/
def folderIDCheckLoop :
    Nat → List FolderConfiguration → List (String × Nat) → Nat → Nat →
      List FolderConfiguration
  | 0, folders, _, _, _ => folders
  | fuel + 1, folders, seenFolders, uniqueCounter, i =>
  if h : i < folders.length then
    let folder := folders.get ⟨i, h⟩
    if folder.Path.length = 0 then
      folderIDCheckLoop fuel
        (folders.set i { folder with Invalid := "no directory configured" })
        seenFolders uniqueCounter (i + 1)
    else
      let folder := if folder.ID = "" then { folder with ID := "default" }
                    else folder
      let folders := folders.set i folder
      match seenFolders.lookup folder.ID with
      | some seenIdx =>
          -- seen.Invalid = "duplicate folder ID"; if seen.ID == folder.ID
          -- then rename seen to "<id>~<counter+1>"; then mark and rename
          -- the current folder to "<id>~<counter+2 or +1>".
          let seen := folders.getD seenIdx default
          let seen := { seen with Invalid := "duplicate folder ID" }
          let sc : FolderConfiguration × Nat :=
            if seen.ID = folder.ID then
              ({ seen with
                 ID := folder.ID ++ "~" ++ toString (uniqueCounter + 1) },
               uniqueCounter + 1)
            else (seen, uniqueCounter)
          let folders := folders.set seenIdx sc.1
          let uniqueCounter := sc.2 + 1
          let folder := { folder with
                          Invalid := "duplicate folder ID"
                          ID := folder.ID ++ "~" ++ toString uniqueCounter }
          folderIDCheckLoop fuel (folders.set i folder) seenFolders
            uniqueCounter (i + 1)
      | none =>
          folderIDCheckLoop fuel folders ((folder.ID, i) :: seenFolders)
            uniqueCounter (i + 1)
  else folders

/-- Lines 357-364 of `prepare`: seed defaulted nil slices
(`fillNilSlices(&cfg.Options)`), then deduplicate the listen-address
list.  The replacement of a nil folder slice by an empty one (lines
361-364) is a no-op under the `List` model. -/
def prepareOptionsPhase (cfg : Configuration) : Configuration :=
  let cfg : Configuration :=
    { cfg with Options := fillNilSlices cfg.Options }
  { cfg with
    Options := { cfg.Options with
                 ListenAddress :=
                   some (uniqueStrings (cfg.Options.ListenAddress.getD [])) } }

/-- Lines 366-395 of `prepare`: the missing/bad/duplicate folder-id
pass. -/
def prepareFolderIDPhase (cfg : Configuration) : Configuration :=
  { cfg with
    Folders := folderIDCheckLoop cfg.Folders.length cfg.Folders [] 0 0 }

/-- Lines 397-401 of `prepare`: a set deprecated `URDeclined` flag
forces `URAccepted` to the permanent-off sentinel `-1`; both deprecated
usage-reporting flags are then cleared. -/
def prepareURPhase (cfg : Configuration) : Configuration :=
  let cfg : Configuration :=
    if cfg.Options.Deprecated_URDeclined then
      { cfg with Options := { cfg.Options with URAccepted := -1 } }
    else cfg
  { cfg with
    Options := { cfg.Options with
                 Deprecated_URDeclined := false
                 Deprecated_UREnabled := false } }

/-- Lines 423-431 of `prepare`: hash an old cleartext GUI password
(non-empty and not starting with the `$` sentinel).  `bcrypt` is an
external primitive, passed as `hash`; `none` models a hashing failure,
on which the source warns and leaves the cleartext in place. -/
def preparePasswordPhase (hash : String → Option String)
    (cfg : Configuration) : Configuration :=
  if 0 < cfg.GUI.Password.length ∧ cfg.GUI.Password.front ≠ '$' then
    match hash cfg.GUI.Password with
    | none => cfg
    | some h => { cfg with GUI := { cfg.GUI with Password := h } }
  else cfg

/-- The membership normalization applied to each folder's device list
(the body of the loop at usage.go lines 452-457): ensure the local
device, drop edges to unknown devices, drop duplicate edges, sort by
device id. -/
def folderDevicePipeline (myID : DeviceID) (existing : List DeviceID)
    (devs : List FolderDeviceConfiguration) :
    List FolderDeviceConfiguration :=
  sortFolderDeviceConfigurations
    (ensureNoDuplicates
      (ensureExistingDevices (ensureDevicePresent devs myID) existing))

/-- Lines 433-457 of `prepare`: build the existing-device id set (the
local id plus every declared device, before any insertion), append a
root entry for the local device if missing (named from the hostname),
sort the root device list, then normalize every folder's membership
list: ensure the local device, drop edges to unknown devices, drop
duplicate edges, sort by device id. -/
def prepareDevicesPhase (hostname : String) (myID : DeviceID)
    (cfg : Configuration) : Configuration :=
  let existingDevices : List DeviceID :=
    myID :: cfg.Devices.map (fun d => d.deviceID)
  let cfg : Configuration :=
    match GetDeviceConfiguration cfg myID with
    | some _ => cfg
    | none =>
        { cfg with
          Devices := cfg.Devices ++
            [{ deviceID := myID, Name := hostname, Addresses := [],
               Compression := false, CertName := "", Introducer := false }] }
  let cfg : Configuration :=
    { cfg with Devices := sortDeviceConfigurations cfg.Devices }
  { cfg with
    Folders := cfg.Folders.map (fun f =>
      { f with
        Devices := folderDevicePipeline myID existingDevices f.Devices }) }

/-- Lines 459-465 of `prepare`: a device address list that is empty or
contains exactly one empty string becomes `["dynamic"]`. -/
def prepareAddressesPhase (cfg : Configuration) : Configuration :=
  { cfg with
    Devices := cfg.Devices.map (fun n =>
      if n.Addresses = [] ∨ n.Addresses = [""] then
        { n with Addresses := ["dynamic"] }
      else n) }

/-- `Configuration.prepare` (usage.go lines 356-466), the Consistency
Normalizer: the composition, in source order, of the blocks of the
source function (options defaults; folder ids; usage-reporting flags;
the migration chain, lines 403-421; password hashing; device/folder
membership normalization; address placeholders).  The parameters model
the external inputs: `hash` is bcrypt, `hostname` the result of
`os.Hostname()` (whose error the source discards), `myID` the local
device identity. -/
def prepare (hash : String → Option String) (hostname : String)
    (myID : DeviceID) (cfg : Configuration) : Configuration :=
  prepareAddressesPhase
    (prepareDevicesPhase hostname myID
      (preparePasswordPhase hash
        (runMigrations
          (prepareURPhase
            (prepareFolderIDPhase
              (prepareOptionsPhase cfg))))))

/-- Overwriting insert into an association list: Go `m[k] = v`. -/
def insertAL {κ ν : Type} [DecidableEq κ] :
    List (κ × ν) → κ → ν → List (κ × ν)
  | [], k, v => [(k, v)]
  | p :: ps, k, v =>
      if p.1 = k then (k, v) :: ps else p :: insertAL ps k v

/-- Association-list lookup: Go `m[k]` presence/value. -/
def lookupAL {κ ν : Type} [DecidableEq κ] :
    List (κ × ν) → κ → Option ν
  | [], _ => none
  | p :: ps, k => if p.1 = k then some p.2 else lookupAL ps k

/-- `Configuration.FolderMap` (usage.go lines 237-243): the folder list
keyed by id; a later folder with the same id overwrites the earlier
entry. -/
def FolderMap (cfg : Configuration) :
    List (String × FolderConfiguration) :=
  cfg.Folders.foldl (fun m r => insertAL m r.ID r) []

/-- `Configuration.DeviceMap` (usage.go lines 211-217). -/
def DeviceMap (cfg : Configuration) :
    List (DeviceID × DeviceConfiguration) :=
  cfg.Devices.foldl (fun m n => insertAL m n.deviceID n) []

/-- The Go zero value of `FolderConfiguration`: indexing a map at a
missing key yields it (`toFolders[id]` in `ChangeRequiresRestart`). -/
def zeroFolderConfiguration : FolderConfiguration :=
  { ID := "", Path := "", Devices := [], ReadOnly := false,
    RescanIntervalS := 0, IgnorePerms := false, Invalid := "",
    Versioning := { Type_ := "", Params := [] },
    Deprecated_Directory := "", Deprecated_Nodes := [] }

/-- `ChangeRequiresRestart` (usage.go lines 505-534).  Restart is
required iff the folder counts differ, or some folder of `cfrom` maps
to a structurally different (possibly zero, when absent) folder of
`cto`, or some device id of `cfrom` is absent from `cto`, or the
options or GUI records differ.  `reflect.DeepEqual` is structural
equality; under the `List` model nil and empty slices compare equal and
map-valued fields compare order-sensitively — neither distinction
arises in the claims settled here.  The Go map iterations are
order-independent because only the existence of a differing entry is
consulted.  (`from` is a reserved word in Lean, hence `cfrom`/`cto`.) -/
def ChangeRequiresRestart (cfrom cto : Configuration) : Bool :=
  if cfrom.Folders.length ≠ cto.Folders.length then true
  else if (FolderMap cfrom).any (fun p =>
      decide ((lookupAL (FolderMap cto) p.1).getD zeroFolderConfiguration
        ≠ p.2)) then true
  else if (DeviceMap cfrom).any (fun p =>
      decide (lookupAL (DeviceMap cto) p.1 = none)) then true
  else if cfrom.Options ≠ cto.Options ∨ cfrom.GUI ≠ cto.GUI then true
  else false

/-- One reflected struct field as `setDefaults` (usage.go lines
245-280) sees it: its current value with its dynamic type, and its
`default` tag (the empty string when the tag is absent).  The four
constructors are exactly the types the source's switch handles; any
other field type panics in the `default:` case, and no embedded struct
has one. -/
inductive FieldVal where
  | fstr (s : String)
  | fint (n : Int)
  | fbool (b : Bool)
  | fstrs (l : List String)
deriving DecidableEq

/-- A reflected field: value plus declared default tag. -/
structure Field where
  val : FieldVal
  defaultTag : String
deriving DecidableEq

/-- Digit run of `strconv.ParseInt`: all characters must be decimal
digits; accumulates the value. -/
def parseDigits (cs : List Char) : Option Nat :=
  cs.foldl
    (fun acc c =>
      match acc with
      | none => none
      | some n => if c.isDigit then some (n * 10 + (c.toNat - 48)) else none)
    (some 0)

/-- `strconv.ParseInt(v, 10, 64)`: optional leading sign, then one or
more decimal digits, value within the signed 64-bit range; `none`
models a returned error. -/
def parseInt64 (s : String) : Option Int :=
  match s.data with
  | [] => none
  | c :: rest =>
      let signDigits : Bool × List Char :=
        if c = '-' then (true, rest)
        else if c = '+' then (false, rest)
        else (false, c :: rest)
      match parseDigits signDigits.2 with
      | none => none
      | some n =>
          if signDigits.2 = [] then none
          else
            let v : Int := if signDigits.1 then -(n : Int) else (n : Int)
            if v < -(2 ^ 63) ∨ 2 ^ 63 - 1 < v then none else some v

/-- The loop body of `setDefaults` (usage.go lines 249-278) for one
field: with a non-empty `default` tag, a string field is set to the
tag, an int field to the parsed tag — an unparseable tag IS the
returned error —, a bool field to the tag's comparison with "true";
`[]string` fields are deliberately skipped in this pass. -/
def applyDefault (f : Field) : Except String Field :=
  if f.defaultTag.length = 0 then .ok f
  else
    match f.val with
    | .fstr _ => .ok { f with val := .fstr f.defaultTag }
    | .fint _ =>
        match parseInt64 f.defaultTag with
        | none => .error f.defaultTag
        | some n => .ok { f with val := .fint n }
    | .fbool _ => .ok { f with val := .fbool (f.defaultTag = "true") }
    | .fstrs _ => .ok f

/-- `setDefaults` (usage.go lines 245-280) over the reflected field
list of one struct: fields are mutated in order and the function
returns at the first parse error, leaving the failing field and all
later fields untouched.  First component: the field list as mutated;
second: the returned error (`nil` = `none`). -/
def setDefaults : List Field → List Field × Option String
  | [] => ([], none)
  | f :: fs =>
      match applyDefault f with
      | .error e => (f :: fs, some e)
      | .ok f' =>
          let r := setDefaults fs
          (f' :: r.1, r.2)

/-- The defaulting phase shared by `New` (usage.go lines 468-480) and
`Load` (usage.go lines 482-501): three `setDefaults` calls — on the
root configuration, the options record and the GUI record — with each
call's RETURNED ERROR DISCARDED by the source (`setDefaults(&cfg)` as a
bare statement).  The phase therefore yields the (possibly partially)
defaulted field lists and exposes no error. -/
def newDefaultingPhase (cfgFields optionsFields guiFields : List Field) :
    List Field × List Field × List Field :=
  ((setDefaults cfgFields).1, (setDefaults optionsFields).1,
   (setDefaults guiFields).1)

/-- Outcome environment for one run of `Configuration.Save` (usage.go
lines 306-340): for each fallible step of the save path, the error that
step returns (`none` = success).  Errors are modeled as strings. -/
structure SaveEnv where
  createErr : Option String
  encodeErr : Option String
  writeErr : Option String
  closeErr : Option String
  renameErr : Option String
deriving DecidableEq

/-- Observable outcome of one run of `Save`: the returned error,
whether the `ConfigSaved` notification was published on the event bus,
and whether the real file was atomically replaced by the temporary
file. -/
structure SaveOutcome where
  err : Option String
  configSavedPublished : Bool
  realFileReplaced : Bool
deriving DecidableEq

/-- `Configuration.Save` (usage.go lines 306-340) as a function of its
step outcomes.  Create the temporary file, encode into it, write the
trailing newline, close — each failure returns that error immediately,
with no notification and the real file untouched.  Then rename the
temporary file over the real one; NOTE the source then logs
`events.ConfigSaved` UNCONDITIONALLY — whether or not the rename
failed — and returns the rename error. -/
def Save (env : SaveEnv) : SaveOutcome :=
  match env.createErr with
  | some e => { err := some e, configSavedPublished := false,
                realFileReplaced := false }
  | none =>
  match env.encodeErr with
  | some e => { err := some e, configSavedPublished := false,
                realFileReplaced := false }
  | none =>
  match env.writeErr with
  | some e => { err := some e, configSavedPublished := false,
                realFileReplaced := false }
  | none =>
  match env.closeErr with
  | some e => { err := some e, configSavedPublished := false,
                realFileReplaced := false }
  | none =>
  match env.renameErr with
  | some e => { err := some e, configSavedPublished := true,
                realFileReplaced := false }
  | none => { err := none, configSavedPublished := true,
              realFileReplaced := true }

/-- `protocol.FileInfo` is declared outside the provided sources; the
wire-format decorator touches only its `Name` field.  All remaining
fields (flags, modified time, version, blocks, ...) are abstracted into
a single residual component that the decorator must leave unchanged. -/
structure FileInfo where
  Name : String
  rest : Nat
deriving DecidableEq, Inhabited

/-- The per-entry name rewrite of the wire-format decorator
(wireformat.go lines 30, 41, 48):
`norm.NFC.String(filepath.ToSlash(name))`.  `filepath.ToSlash`
(path-separator rewrite) and `norm.NFC.String` (Unicode NFC) are
external library functions, platform- and Unicode-table-dependent;
they are parameters `toSlash` and `nfc` everywhere below, applied in
the source's order: separators first, then NFC. -/
def wireName (nfc toSlash : String → String) (s : String) : String :=
  nfc (toSlash s)

/-- The rewrite loop of `Index`/`IndexUpdate` (wireformat.go lines
29-31 and 40-42): `for i := range fs`, rewrite the name of `myFs[i]`
in place.  `myFs` is the copy of `fs`, of equal length. -/
def wireNormLoop (nfc toSlash : String → String) :
    Nat → List FileInfo → Nat → Nat → List FileInfo
  | 0, myFs, _, _ => myFs
  | fuel + 1, myFs, i, n =>
      if i < n then
        let f := myFs.getD i default
        wireNormLoop nfc toSlash fuel
          (myFs.set i { f with Name := wireName nfc toSlash f.Name })
          (i + 1) n
      else myFs

/-- The list `Index` (and `IndexUpdate`) forwards to the underlying
connection (wireformat.go lines 25-34): `myFs := make(...)`;
`copy(myFs, fs)` — in this pure model the freshly copied list is the
same list value — then the rewrite loop over all `len(fs)` entries. -/
def wireFormatIndexArg (nfc toSlash : String → String)
    (fs : List FileInfo) : List FileInfo :=
  wireNormLoop nfc toSlash fs.length fs 0 fs.length

/-- `protocol.Connection`, restricted to the three methods the claims
concern; each method is an abstract function standing for the
underlying connection's behavior. -/
structure Connection where
  index : String → List FileInfo → Option String
  indexUpdate : String → List FileInfo → Option String
  request : String → String → Int → Int → List Nat × Option String

/-- `wireFormatConnection` (wireformat.go lines 13-50) over an
underlying connection `next`: `Index` and `IndexUpdate` forward a
rewritten copy of the file list, `Request` forwards the rewritten
name; folder, offset and size pass through unchanged. -/
def wireFormatConnection (nfc toSlash : String → String)
    (next : Connection) : Connection :=
  { index := fun folder fs =>
      next.index folder (wireFormatIndexArg nfc toSlash fs)
    indexUpdate := fun folder fs =>
      next.indexUpdate folder (wireFormatIndexArg nfc toSlash fs)
    request := fun folder name offset size =>
      next.request folder (wireName nfc toSlash name) offset size }

/-- A heap of `FileInfo` arrays, for stating the frame property of
`Index`/`IndexUpdate` at the level of Go slice mutation: a slice value
is a reference (an index) into the heap. -/
structure SliceHeap where
  arrays : List (List FileInfo)
deriving DecidableEq

/-- Dereference a slice. -/
def heapGet (h : SliceHeap) (r : Nat) : List FileInfo :=
  h.arrays.getD r []

/-- Overwrite the array a slice refers to. -/
def heapSet (h : SliceHeap) (r : Nat) (a : List FileInfo) : SliceHeap :=
  { arrays := h.arrays.set r a }

/-- `make([]FileInfo, ...)`: allocate a fresh array, returning the
updated heap and the fresh reference. -/
def heapAlloc (h : SliceHeap) (a : List FileInfo) : SliceHeap × Nat :=
  ({ arrays := h.arrays ++ [a] }, h.arrays.length)

/-- The rewrite loop of `Index` acting on the heap: each iteration
reads the array at `myRef`, rewrites the name of entry `i`, and writes
the array back.  Only `myRef` is ever written. -/
def heapNormLoop (nfc toSlash : String → String) :
    Nat → SliceHeap → Nat → Nat → Nat → SliceHeap
  | 0, h, _, _, _ => h
  | fuel + 1, h, myRef, i, n =>
      if i < n then
        let a := heapGet h myRef
        let f := a.getD i default
        heapNormLoop nfc toSlash fuel
          (heapSet h myRef
            (a.set i { f with Name := wireName nfc toSlash f.Name }))
          myRef (i + 1) n
      else h

/-- The body of `wireFormatConnection.Index` (wireformat.go lines
25-34) at the heap level: `fs` is the caller's slice (a heap
reference); `myFs := make([]FileInfo, len(fs))` allocates a fresh
array; `copy(myFs, fs)` overwrites it elementwise with the contents of
`fs` (complete, as the lengths are equal); the loop then rewrites names
in `myFs` only.  Returns the final heap and the reference forwarded to
the underlying connection. -/
def indexBodyHeap (nfc toSlash : String → String) (h : SliceHeap)
    (fsRef : Nat) : SliceHeap × Nat :=
  let fs := heapGet h fsRef
  let am := heapAlloc h (List.replicate fs.length default)
  let h1 := heapSet am.1 am.2 fs
  (heapNormLoop nfc toSlash fs.length h1 am.2 0 fs.length, am.2)

/-- The body of `wireFormatConnection.IndexUpdate` (wireformat.go lines
36-45), textually identical to `Index`'s body. -/
def indexUpdateBodyHeap (nfc toSlash : String → String) (h : SliceHeap)
    (fsRef : Nat) : SliceHeap × Nat :=
  let fs := heapGet h fsRef
  let am := heapAlloc h (List.replicate fs.length default)
  let h1 := heapSet am.1 am.2 fs
  (heapNormLoop nfc toSlash fs.length h1 am.2 0 fs.length, am.2)

/-! ### Concrete configurations used by witnesses and counterexamples -/

/-- The Go zero value of `GUIConfiguration`. -/
def zeroGUIConfiguration : GUIConfiguration :=
  { Enabled := false, Address := "", User := "", Password := "",
    UseTLS := false, APIKey := "" }

/-- The Go zero value of `OptionsConfiguration` (nil listen-address
slice). -/
def zeroOptionsConfiguration : OptionsConfiguration :=
  { ListenAddress := none, GlobalAnnServer := "",
    GlobalAnnEnabled := false, LocalAnnEnabled := false,
    LocalAnnPort := 0, LocalAnnMCAddr := "", MaxSendKbps := 0,
    MaxRecvKbps := 0, ReconnectIntervalS := 0, StartBrowser := false,
    UPnPEnabled := false, UPnPLease := 0, UPnPRenewal := 0,
    URAccepted := 0, RestartOnWakeup := false,
    AutoUpgradeIntervalH := 0, Deprecated_RescanIntervalS := 0,
    Deprecated_UREnabled := false, Deprecated_URDeclined := false,
    Deprecated_ReadOnly := false, Deprecated_GUIEnabled := false,
    Deprecated_GUIAddress := "" }

/-- The Go zero value of `Configuration`. -/
def zeroConfiguration : Configuration :=
  { Location := "", Version := 0, Folders := [], Devices := [],
    GUI := zeroGUIConfiguration, Options := zeroOptionsConfiguration,
    Deprecated_Repositories := [], Deprecated_Nodes := [] }

/-- A root device entry with a given id, otherwise zero. -/
def mkDevice (id : DeviceID) : DeviceConfiguration :=
  { deviceID := id, Name := "", Addresses := [], Compression := false,
    CertName := "", Introducer := false }

/-- A membership edge with a given device id, otherwise zero. -/
def mkEdge (id : DeviceID) : FolderDeviceConfiguration :=
  { deviceID := id, Deprecated_Name := "", Deprecated_Addresses := [] }

/-- A folder with a given id, path and membership edges, otherwise
zero. -/
def mkFolder (id path : String)
    (devs : List FolderDeviceConfiguration) : FolderConfiguration :=
  { zeroFolderConfiguration with
    ID := id
    Path := path
    Devices := devs }

/-- An otherwise-zero configuration at schema version 3. -/
def versionThreeConfiguration : Configuration :=
  { zeroConfiguration with Version := 3 }

/-- A current-version configuration whose root device list declares the
local identity (id 7) twice. -/
def duplicateLocalConfiguration : Configuration :=
  { zeroConfiguration with
    Version := 5
    Devices := [mkDevice 7, mkDevice 7] }

/-- A version-3 configuration with one repository whose single embedded
device record carries a deprecated name and address, and a node-wide
rescan interval of 30. -/
def rescanScrubConfiguration : Configuration :=
  { zeroConfiguration with
    Version := 3
    Deprecated_Repositories :=
      [{ zeroFolderConfiguration with
         ID := "r1"
         Deprecated_Nodes :=
           [{ deviceID := 1, Deprecated_Name := "foo",
              Deprecated_Addresses := ["tcp://a:22000"] }] }]
    Options := { zeroOptionsConfiguration with
                 Deprecated_RescanIntervalS := 30 } }

/-- A current-version configuration with two folders, both with
non-empty paths and empty identifiers. -/
def twoEmptyIDFolderConfiguration : Configuration :=
  { zeroConfiguration with
    Version := 5
    Folders := [mkFolder "" "/a" [], mkFolder "" "/b" []] }

/-- A save run in which every step succeeds except the final rename. -/
def renameFailEnv : SaveEnv :=
  { createErr := none, encodeErr := none, writeErr := none,
    closeErr := none, renameErr := some "rename failed" }

/-- A reflected field list with an int field whose default tag "x"
does not parse, followed by a defaulted string field. -/
def badDefaultFields : List Field :=
  [{ val := .fint 0, defaultTag := "x" },
   { val := .fstr "", defaultTag := "hello" }]

/-- A current-version configuration, local id 7: one folder whose
membership list references an unknown device (id 9) and the known
device 3 twice; the root list declares device 3 only. -/
def folderEdgeConfiguration : Configuration :=
  { zeroConfiguration with
    Version := 5
    Devices := [mkDevice 3]
    Folders := [mkFolder "f" "/a" [mkEdge 9, mkEdge 3, mkEdge 3]] }

/-- A small two-device, one-folder configuration for the restart
analyzer. -/
def restartBaseConfiguration : Configuration :=
  { zeroConfiguration with
    Version := 5
    Folders := [mkFolder "f" "/a" [mkEdge 1]]
    Devices := [mkDevice 1, mkDevice 2] }

/-! ### Generic list helpers -/

theorem getD_set_ne {α : Type} [Inhabited α] (l : List α) {i j : Nat}
    (a : α) (h : i ≠ j) : (l.set i a).getD j default = l.getD j default := by
  simp [List.getD_eq_getElem?_getD, List.getElem?_set_ne h]

theorem getD_set_self {α : Type} [Inhabited α] (l : List α) {i : Nat}
    (a : α) (h : i < l.length) : (l.set i a).getD i default = a := by
  simp [List.getD_eq_getElem?_getD, List.getElem?_set_self, h]

theorem mem_take_getD {α : Type} [Inhabited α] {l : List α} {n : Nat}
    {a : α} (h : a ∈ l.take n) :
    ∃ j, j < n ∧ j < l.length ∧ l.getD j default = a := by
  obtain ⟨i, hi, hv⟩ := List.mem_iff_getElem.mp h
  have hlen : i < n ∧ i < l.length := by
    have h' := hi
    simp [List.length_take] at h'
    omega
  refine ⟨i, hlen.1, hlen.2, ?_⟩
  rw [List.getD_eq_getElem l default hlen.2, ← hv, List.getElem_take]

theorem getD_mem_take {α : Type} [Inhabited α] {l : List α} {n j : Nat}
    (hjn : j < n) (hjl : j < l.length) : l.getD j default ∈ l.take n := by
  apply List.mem_iff_getElem.mpr
  refine ⟨j, by simp [List.length_take]; omega, ?_⟩
  rw [List.getElem_take, List.getD_eq_getElem l default hjl]

theorem take_set_self {α : Type} (l : List α) (i : Nat) (a : α) :
    (l.set i a).take i = l.take i := by
  induction l generalizing i with
  | nil => simp
  | cons x xs ih =>
      cases i with
      | zero => simp
      | succ n => simp [List.set, ih]

theorem deviceID_mem_iff_getD (devices : List FolderDeviceConfiguration)
    (id : DeviceID) :
    id ∈ devices.map (fun d => d.deviceID) ↔
      ∃ j, j < devices.length ∧
        (devices.getD j default).deviceID = id := by
  constructor
  · intro h
    obtain ⟨d, hd, hdi⟩ := List.mem_map.mp h
    obtain ⟨j, hj, hv⟩ := List.mem_iff_getElem.mp hd
    refine ⟨j, hj, ?_⟩
    rw [List.getD_eq_getElem devices default hj, hv, hdi]
  · rintro ⟨j, hj, hv⟩
    refine List.mem_map.mpr ⟨devices.getD j default, ?_, hv⟩
    rw [List.getD_eq_getElem devices default hj]
    exact List.getElem_mem hj

/-! ### Properties of the swap-with-last loops -/

theorem ensureExistingLoop_sound (existing : List DeviceID) :
    ∀ (fuel : Nat) (devices : List FolderDeviceConfiguration)
      (i count : Nat), count - i ≤ fuel →
      (∀ j, j < i → j < count →
        (devices.getD j default).deviceID ∈ existing) →
      ∀ d ∈ ensureExistingLoop existing fuel devices i count,
        d.deviceID ∈ existing := by
  intro fuel
  induction fuel with
  | zero =>
      intro devices i count hfuel hpre d hd
      simp only [ensureExistingLoop] at hd
      obtain ⟨j, hjn, hjl, hv⟩ := mem_take_getD hd
      have := hpre j (by omega) hjn
      rwa [hv] at this
  | succ fuel ih =>
      intro devices i count hfuel hpre d hd
      simp only [ensureExistingLoop] at hd
      by_cases h1 : i < count
      · rw [if_pos h1] at hd
        by_cases h2 : (devices.getD i default).deviceID ∈ existing
        · rw [if_pos h2] at hd
          refine ih devices (i + 1) count (by omega) ?_ d hd
          intro j hj hjc
          rcases Nat.lt_or_ge j i with hji | hji
          · exact hpre j hji hjc
          · have hje : j = i := by omega
            subst hje
            exact h2
        · rw [if_neg h2] at hd
          refine ih _ i (count - 1) (by omega) ?_ d hd
          intro j hj hjc
          rw [getD_set_ne devices _ (by omega : i ≠ j)]
          exact hpre j hj (by omega)
      · rw [if_neg h1] at hd
        obtain ⟨j, hjn, hjl, hv⟩ := mem_take_getD hd
        have := hpre j (by omega) hjn
        rwa [hv] at this

theorem ensureExistingLoop_mem (existing : List DeviceID) (id : DeviceID)
    (hid : id ∈ existing) :
    ∀ (fuel : Nat) (devices : List FolderDeviceConfiguration)
      (i count : Nat), count ≤ devices.length →
      (∃ j, j < count ∧ (devices.getD j default).deviceID = id) →
      id ∈ (ensureExistingLoop existing fuel devices i count).map
        (fun d => d.deviceID) := by
  intro fuel
  induction fuel with
  | zero =>
      intro devices i count hlen ⟨j, hjc, hjv⟩
      simp only [ensureExistingLoop]
      refine List.mem_map.mpr ⟨devices.getD j default, ?_, hjv⟩
      exact getD_mem_take hjc (by omega)
  | succ fuel ih =>
      intro devices i count hlen ⟨j, hjc, hjv⟩
      simp only [ensureExistingLoop]
      by_cases h1 : i < count
      · rw [if_pos h1]
        by_cases h2 : (devices.getD i default).deviceID ∈ existing
        · rw [if_pos h2]
          exact ih devices (i + 1) count hlen ⟨j, hjc, hjv⟩
        · rw [if_neg h2]
          have hji : j ≠ i := by
            intro he
            subst he
            rw [hjv] at h2
            exact h2 hid
          apply ih _ i (count - 1) (by rw [List.length_set]; omega)
          by_cases hjl : j = count - 1
          · refine ⟨i, by omega, ?_⟩
            rw [getD_set_self devices _ (by omega), ← hjl]
            exact hjv
          · refine ⟨j, by omega, ?_⟩
            rw [getD_set_ne devices _ (Ne.symm hji)]
            exact hjv
      · rw [if_neg h1]
        refine List.mem_map.mpr ⟨devices.getD j default, ?_, hjv⟩
        exact getD_mem_take hjc (by omega)

theorem ensureExistingLoop_subset (existing : List DeviceID) :
    ∀ (fuel : Nat) (devices : List FolderDeviceConfiguration)
      (i count : Nat), count ≤ devices.length →
      ∀ d ∈ ensureExistingLoop existing fuel devices i count,
        d ∈ devices := by
  intro fuel
  induction fuel with
  | zero =>
      intro devices i count hlen d hd
      simp only [ensureExistingLoop] at hd
      exact (List.take_sublist count devices).subset hd
  | succ fuel ih =>
      intro devices i count hlen d hd
      simp only [ensureExistingLoop] at hd
      by_cases h1 : i < count
      · rw [if_pos h1] at hd
        by_cases h2 : (devices.getD i default).deviceID ∈ existing
        · rw [if_pos h2] at hd
          exact ih devices (i + 1) count hlen d hd
        · rw [if_neg h2] at hd
          have hd' := ih _ i (count - 1)
            (by rw [List.length_set]; omega) d hd
          rcases List.mem_or_eq_of_mem_set hd' with h | h
          · exact h
          · subst h
            rw [List.getD_eq_getElem devices default
              (by omega : count - 1 < devices.length)]
            exact List.getElem_mem _
      · rw [if_neg h1] at hd
        exact (List.take_sublist count devices).subset hd

theorem ensureNoDuplicatesLoop_nodup :
    ∀ (fuel : Nat) (devices : List FolderDeviceConfiguration)
      (seen : List DeviceID) (i count : Nat),
      count - i ≤ fuel → count ≤ devices.length →
      ((devices.take i).map (fun d => d.deviceID)).Nodup →
      (∀ j, j < i → (devices.getD j default).deviceID ∈ seen) →
      ((ensureNoDuplicatesLoop fuel devices seen i count).map
        (fun d => d.deviceID)).Nodup := by
  intro fuel
  induction fuel with
  | zero =>
      intro devices seen i count hfuel hlen hnd hpre
      simp only [ensureNoDuplicatesLoop]
      have hsub : List.Sublist (devices.take count) (devices.take i) := by
        have heq : devices.take count = (devices.take i).take count := by
          rw [List.take_take]
          congr 1
          omega
        rw [heq]
        exact List.take_sublist count (devices.take i)
      exact hnd.sublist (hsub.map (fun d => d.deviceID))
  | succ fuel ih =>
      intro devices seen i count hfuel hlen hnd hpre
      simp only [ensureNoDuplicatesLoop]
      by_cases h1 : i < count
      · rw [if_pos h1]
        by_cases h2 : (devices.getD i default).deviceID ∈ seen
        · rw [if_pos h2]
          apply ih _ seen i (count - 1) (by omega)
            (by rw [List.length_set]; omega)
          · rw [take_set_self]
            exact hnd
          · intro j hj
            rw [getD_set_ne devices _ (by omega : i ≠ j)]
            exact hpre j hj
        · rw [if_neg h2]
          apply ih devices _ (i + 1) count (by omega) hlen
          · have hi : i < devices.length := by omega
            rw [List.take_succ]
            have hv : devices[i]? = some devices[i] :=
              List.getElem?_eq_getElem hi
            rw [hv]
            simp only [List.map_append, Option.toList_some,
              List.map_cons, List.map_nil]
            rw [List.nodup_append]
            refine ⟨hnd, List.nodup_singleton _, ?_⟩
            intro x hx hx'
            simp only [List.mem_singleton] at hx'
            subst hx'
            obtain ⟨d, hd, hdv⟩ := List.mem_map.mp hx
            obtain ⟨j, hjn, hjl, hv'⟩ := mem_take_getD hd
            apply h2
            show (devices.getD i default).deviceID ∈ seen
            rw [List.getD_eq_getElem devices default hi]
            have := hpre j hjn
            rw [hv', hdv] at this
            exact this
          · intro j hj
            rcases Nat.lt_or_ge j i with hji | hji
            · exact List.mem_cons_of_mem _ (hpre j hji)
            · have hje : j = i := by omega
              subst hje
              exact List.mem_cons_self _ _
      · rw [if_neg h1]
        have hsub : List.Sublist (devices.take count)
            (devices.take i) := by
          have heq : devices.take count = (devices.take i).take count := by
            rw [List.take_take]
            congr 1
            omega
          rw [heq]
          exact List.take_sublist count (devices.take i)
        exact hnd.sublist (hsub.map (fun d => d.deviceID))

theorem ensureNoDuplicatesLoop_mem (id : DeviceID) :
    ∀ (fuel : Nat) (devices : List FolderDeviceConfiguration)
      (seen : List DeviceID) (i count : Nat),
      count ≤ devices.length →
      (∀ s ∈ seen, ∃ j, j < i ∧ j < count ∧
        (devices.getD j default).deviceID = s) →
      (∃ j, j < count ∧ (devices.getD j default).deviceID = id) →
      id ∈ (ensureNoDuplicatesLoop fuel devices seen i count).map
        (fun d => d.deviceID) := by
  intro fuel
  induction fuel with
  | zero =>
      intro devices seen i count hlen hinv ⟨j, hjc, hjv⟩
      simp only [ensureNoDuplicatesLoop]
      refine List.mem_map.mpr ⟨devices.getD j default, ?_, hjv⟩
      exact getD_mem_take hjc (by omega)
  | succ fuel ih =>
      intro devices seen i count hlen hinv ⟨j, hjc, hjv⟩
      simp only [ensureNoDuplicatesLoop]
      by_cases h1 : i < count
      · rw [if_pos h1]
        by_cases h2 : (devices.getD i default).deviceID ∈ seen
        · rw [if_pos h2]
          obtain ⟨j0, hj0i, hj0c, hj0v⟩ := hinv _ h2
          apply ih _ seen i (count - 1) (by rw [List.length_set]; omega)
          · intro s hs
            obtain ⟨k, hki, hkc, hkv⟩ := hinv s hs
            refine ⟨k, hki, by omega, ?_⟩
            rw [getD_set_ne devices _ (by omega : i ≠ k)]
            exact hkv
          · by_cases hji : j = i
            · refine ⟨j0, by omega, ?_⟩
              rw [getD_set_ne devices _ (by omega : i ≠ j0)]
              rw [hj0v, ← hjv, hji]
            · by_cases hjl : j = count - 1
              · refine ⟨i, by omega, ?_⟩
                rw [getD_set_self devices _ (by omega), ← hjl]
                exact hjv
              · refine ⟨j, by omega, ?_⟩
                rw [getD_set_ne devices _ (Ne.symm hji)]
                exact hjv
        · rw [if_neg h2]
          apply ih devices _ (i + 1) count hlen
          · intro s hs
            rcases List.mem_cons.mp hs with hs' | hs'
            · exact ⟨i, by omega, h1, hs'.symm⟩
            · obtain ⟨k, hki, hkc, hkv⟩ := hinv s hs'
              exact ⟨k, by omega, hkc, hkv⟩
          · exact ⟨j, hjc, hjv⟩
      · rw [if_neg h1]
        refine List.mem_map.mpr ⟨devices.getD j default, ?_, hjv⟩
        exact getD_mem_take hjc (by omega)

theorem ensureNoDuplicatesLoop_subset :
    ∀ (fuel : Nat) (devices : List FolderDeviceConfiguration)
      (seen : List DeviceID) (i count : Nat),
      count ≤ devices.length →
      ∀ d ∈ ensureNoDuplicatesLoop fuel devices seen i count,
        d ∈ devices := by
  intro fuel
  induction fuel with
  | zero =>
      intro devices seen i count hlen d hd
      simp only [ensureNoDuplicatesLoop] at hd
      exact (List.take_sublist count devices).subset hd
  | succ fuel ih =>
      intro devices seen i count hlen d hd
      simp only [ensureNoDuplicatesLoop] at hd
      by_cases h1 : i < count
      · rw [if_pos h1] at hd
        by_cases h2 : (devices.getD i default).deviceID ∈ seen
        · rw [if_pos h2] at hd
          have hd' := ih _ seen i (count - 1)
            (by rw [List.length_set]; omega) d hd
          rcases List.mem_or_eq_of_mem_set hd' with h | h
          · exact h
          · subst h
            rw [List.getD_eq_getElem devices default
              (by omega : count - 1 < devices.length)]
            exact List.getElem_mem _
        · rw [if_neg h2] at hd
          exact ih devices _ (i + 1) count hlen d hd
      · rw [if_neg h1] at hd
        exact (List.take_sublist count devices).subset hd

/-! ### Wrappers and the per-folder pipeline -/

theorem ensureDevicePresent_mem (devs : List FolderDeviceConfiguration)
    (myID : DeviceID) :
    myID ∈ (ensureDevicePresent devs myID).map (fun d => d.deviceID) := by
  unfold ensureDevicePresent
  split
  · next h =>
      obtain ⟨d, hd, he⟩ := List.any_eq_true.mp h
      exact List.mem_map.mpr ⟨d, hd, by simpa using he⟩
  · exact List.mem_map.mpr
      ⟨_, List.mem_append_right _ (List.mem_singleton_self _), rfl⟩

theorem ensureExistingDevices_sound (devs : List FolderDeviceConfiguration)
    (existing : List DeviceID) :
    ∀ d ∈ ensureExistingDevices devs existing, d.deviceID ∈ existing := by
  apply ensureExistingLoop_sound existing devs.length devs 0 devs.length
    (by omega)
  intro j hj _
  exact absurd hj (by omega)

theorem ensureExistingDevices_mem (devs : List FolderDeviceConfiguration)
    (existing : List DeviceID) (id : DeviceID) (hid : id ∈ existing)
    (h : id ∈ devs.map (fun d => d.deviceID)) :
    id ∈ (ensureExistingDevices devs existing).map
      (fun d => d.deviceID) := by
  obtain ⟨j, hj, hv⟩ := (deviceID_mem_iff_getD devs id).mp h
  exact ensureExistingLoop_mem existing id hid devs.length devs 0
    devs.length le_rfl ⟨j, hj, hv⟩

theorem ensureExistingDevices_subset
    (devs : List FolderDeviceConfiguration) (existing : List DeviceID) :
    ∀ d ∈ ensureExistingDevices devs existing, d ∈ devs :=
  ensureExistingLoop_subset existing devs.length devs 0 devs.length
    le_rfl

theorem ensureNoDuplicates_nodup (devs : List FolderDeviceConfiguration) :
    ((ensureNoDuplicates devs).map (fun d => d.deviceID)).Nodup := by
  apply ensureNoDuplicatesLoop_nodup devs.length devs [] 0 devs.length
    (by omega) le_rfl
  · simp
  · intro j hj
    exact absurd hj (by omega)

theorem ensureNoDuplicates_mem (devs : List FolderDeviceConfiguration)
    (id : DeviceID) (h : id ∈ devs.map (fun d => d.deviceID)) :
    id ∈ (ensureNoDuplicates devs).map (fun d => d.deviceID) := by
  obtain ⟨j, hj, hv⟩ := (deviceID_mem_iff_getD devs id).mp h
  apply ensureNoDuplicatesLoop_mem id devs.length devs [] 0 devs.length
    le_rfl
  · intro s hs
    exact absurd hs (List.not_mem_nil s)
  · exact ⟨j, hj, hv⟩

theorem ensureNoDuplicates_subset (devs : List FolderDeviceConfiguration) :
    ∀ d ∈ ensureNoDuplicates devs, d ∈ devs :=
  ensureNoDuplicatesLoop_subset devs.length devs [] 0 devs.length
    le_rfl

theorem folderDevicePipeline_sound (myID : DeviceID)
    (existing : List DeviceID) (devs : List FolderDeviceConfiguration) :
    ∀ d ∈ folderDevicePipeline myID existing devs,
      d.deviceID ∈ existing := by
  intro d hd
  unfold folderDevicePipeline sortFolderDeviceConfigurations at hd
  have hd' := (List.perm_insertionSort _ _).subset hd
  exact ensureExistingDevices_sound _ _ d (ensureNoDuplicates_subset _ d hd')

theorem folderDevicePipeline_nodup (myID : DeviceID)
    (existing : List DeviceID) (devs : List FolderDeviceConfiguration) :
    ((folderDevicePipeline myID existing devs).map
      (fun d => d.deviceID)).Nodup := by
  unfold folderDevicePipeline sortFolderDeviceConfigurations
  have hperm :=
    (List.perm_insertionSort
      (fun a b : FolderDeviceConfiguration => a.deviceID ≤ b.deviceID)
      (ensureNoDuplicates
        (ensureExistingDevices (ensureDevicePresent devs myID)
          existing))).map (fun d => d.deviceID)
  exact hperm.nodup_iff.mpr (ensureNoDuplicates_nodup _)

theorem folderDevicePipeline_count_one (myID : DeviceID)
    (existing : List DeviceID) (devs : List FolderDeviceConfiguration)
    (hmy : myID ∈ existing) :
    ((folderDevicePipeline myID existing devs).map
      (fun d => d.deviceID)).count myID = 1 := by
  have h2 := ensureExistingDevices_mem _ existing myID hmy
    (ensureDevicePresent_mem devs myID)
  have h3 := ensureNoDuplicates_mem _ myID h2
  have h4 := ensureNoDuplicates_nodup
    (ensureExistingDevices (ensureDevicePresent devs myID) existing)
  unfold folderDevicePipeline sortFolderDeviceConfigurations
  have hperm :=
    (List.perm_insertionSort
      (fun a b : FolderDeviceConfiguration => a.deviceID ≤ b.deviceID)
      (ensureNoDuplicates
        (ensureExistingDevices (ensureDevicePresent devs myID)
          existing))).map (fun d => d.deviceID)
  rw [hperm.count_eq]
  exact List.count_eq_one_of_mem h4 h3

/-! ### Phase bookkeeping -/

theorem prepareOptionsPhase_Version (cfg : Configuration) :
    (prepareOptionsPhase cfg).Version = cfg.Version := rfl

theorem prepareOptionsPhase_Folders (cfg : Configuration) :
    (prepareOptionsPhase cfg).Folders = cfg.Folders := rfl

theorem prepareOptionsPhase_Devices (cfg : Configuration) :
    (prepareOptionsPhase cfg).Devices = cfg.Devices := rfl

theorem prepareFolderIDPhase_Version (cfg : Configuration) :
    (prepareFolderIDPhase cfg).Version = cfg.Version := rfl

theorem prepareFolderIDPhase_Devices (cfg : Configuration) :
    (prepareFolderIDPhase cfg).Devices = cfg.Devices := rfl

theorem prepareURPhase_Version (cfg : Configuration) :
    (prepareURPhase cfg).Version = cfg.Version := by
  unfold prepareURPhase
  split <;> rfl

theorem prepareURPhase_Folders (cfg : Configuration) :
    (prepareURPhase cfg).Folders = cfg.Folders := by
  unfold prepareURPhase
  split <;> rfl

theorem prepareURPhase_Devices (cfg : Configuration) :
    (prepareURPhase cfg).Devices = cfg.Devices := by
  unfold prepareURPhase
  split <;> rfl

theorem preparePasswordPhase_Version (hash : String → Option String)
    (cfg : Configuration) :
    (preparePasswordPhase hash cfg).Version = cfg.Version := by
  unfold preparePasswordPhase
  split
  · split <;> rfl
  · rfl

theorem preparePasswordPhase_Folders (hash : String → Option String)
    (cfg : Configuration) :
    (preparePasswordPhase hash cfg).Folders = cfg.Folders := by
  unfold preparePasswordPhase
  split
  · split <;> rfl
  · rfl

theorem preparePasswordPhase_Devices (hash : String → Option String)
    (cfg : Configuration) :
    (preparePasswordPhase hash cfg).Devices = cfg.Devices := by
  unfold preparePasswordPhase
  split
  · split <;> rfl
  · rfl

theorem prepareDevicesPhase_Version (hostname : String) (myID : DeviceID)
    (cfg : Configuration) :
    (prepareDevicesPhase hostname myID cfg).Version = cfg.Version := by
  unfold prepareDevicesPhase
  split <;> rfl

theorem prepareDevicesPhase_Folders (hostname : String) (myID : DeviceID)
    (cfg : Configuration) :
    (prepareDevicesPhase hostname myID cfg).Folders =
      cfg.Folders.map (fun f =>
        { f with
          Devices :=
            folderDevicePipeline myID
              (myID :: cfg.Devices.map (fun d => d.deviceID))
              f.Devices }) := by
  unfold prepareDevicesPhase
  split <;> rfl

theorem prepareDevicesPhase_Devices (hostname : String) (myID : DeviceID)
    (cfg : Configuration) :
    (prepareDevicesPhase hostname myID cfg).Devices =
      sortDeviceConfigurations
        (match GetDeviceConfiguration cfg myID with
         | some _ => cfg.Devices
         | none =>
             cfg.Devices ++
               [{ deviceID := myID, Name := hostname, Addresses := [],
                  Compression := false, CertName := "",
                  Introducer := false }]) := by
  unfold prepareDevicesPhase
  split <;> rename_i h <;> simp [h]

theorem prepareAddressesPhase_Version (cfg : Configuration) :
    (prepareAddressesPhase cfg).Version = cfg.Version := rfl

theorem prepareAddressesPhase_Folders (cfg : Configuration) :
    (prepareAddressesPhase cfg).Folders = cfg.Folders := rfl

theorem prepareAddressesPhase_deviceIDs (cfg : Configuration) :
    (prepareAddressesPhase cfg).Devices.map (fun d => d.deviceID) =
      cfg.Devices.map (fun d => d.deviceID) := by
  unfold prepareAddressesPhase
  show (cfg.Devices.map _).map _ = _
  rw [List.map_map]
  apply List.map_congr_left
  intro n _
  simp only [Function.comp]
  split <;> rfl

theorem convertV1V2_Version (cfg : Configuration) :
    (convertV1V2 cfg).Version = 2 := rfl

theorem convertV2V3_Version (cfg : Configuration) :
    (convertV2V3 cfg).Version = 3 := rfl

theorem convertV3V4_Version (cfg : Configuration) :
    (convertV3V4 cfg).Version = 4 := rfl

theorem convertV4V5_Version (cfg : Configuration) :
    (convertV4V5 cfg).Version = 5 := rfl

theorem runMigrations_fixed (cfg : Configuration) (h : cfg.Version = 5) :
    runMigrations cfg = cfg := by
  simp [runMigrations, h]

theorem runMigrations_Version_eq_five (cfg : Configuration)
    (h1 : 1 ≤ cfg.Version) (h5 : cfg.Version ≤ 5) :
    (runMigrations cfg).Version = 5 := by
  have hcase : cfg.Version = 1 ∨ cfg.Version = 2 ∨ cfg.Version = 3 ∨
      cfg.Version = 4 ∨ cfg.Version = 5 := by omega
  rcases hcase with h | h | h | h | h <;>
    simp [runMigrations, h, convertV1V2_Version, convertV2V3_Version,
      convertV3V4_Version, convertV4V5_Version]

theorem prepare_Version_eq_five (hash : String → Option String)
    (hostname : String) (myID : DeviceID) (cfg : Configuration)
    (h1 : 1 ≤ cfg.Version) (h5 : cfg.Version ≤ 5) :
    (prepare hash hostname myID cfg).Version = 5 := by
  unfold prepare
  rw [prepareAddressesPhase_Version, prepareDevicesPhase_Version,
    preparePasswordPhase_Version]
  apply runMigrations_Version_eq_five
  · rw [prepareURPhase_Version, prepareFolderIDPhase_Version,
      prepareOptionsPhase_Version]
    exact h1
  · rw [prepareURPhase_Version, prepareFolderIDPhase_Version,
      prepareOptionsPhase_Version]
    exact h5

/-! ### Wire-format loop characterization and heap frame lemmas -/

theorem wireNormLoop_eq_map (nfc toSlash : String → String) :
    ∀ (fuel : Nat) (l : List FileInfo) (i n : Nat),
      n = l.length → n - i ≤ fuel →
      wireNormLoop nfc toSlash fuel l i n =
        l.take i ++ (l.drop i).map
          (fun f => { f with Name := wireName nfc toSlash f.Name }) := by
  intro fuel
  induction fuel with
  | zero =>
      intro l i n hn hfuel
      simp only [wireNormLoop]
      rw [List.take_of_length_le (by omega),
        List.drop_eq_nil_of_le (by omega : l.length ≤ i)]
      simp
  | succ fuel ih =>
      intro l i n hn hfuel
      simp only [wireNormLoop]
      by_cases h1 : i < n
      · rw [if_pos h1]
        have hi : i < l.length := by omega
        have hfe : l.getD i default = l[i] :=
          List.getD_eq_getElem l default hi
        rw [ih _ (i + 1) n (by rw [List.length_set]; exact hn) (by omega)]
        rw [List.take_succ, take_set_self, List.getElem?_set_self hi]
        rw [List.drop_set_of_lt _ _ (by omega : i < i + 1),
          List.drop_eq_getElem_cons hi]
        simp only [Option.toList_some, List.map_cons, List.append_assoc,
          List.singleton_append]
        rw [hfe]
      · rw [if_neg h1]
        rw [List.take_of_length_le (by omega),
          List.drop_eq_nil_of_le (by omega : l.length ≤ i)]
        simp

theorem wireFormatIndexArg_eq_map (nfc toSlash : String → String)
    (fs : List FileInfo) :
    wireFormatIndexArg nfc toSlash fs =
      fs.map (fun f => { f with Name := nfc (toSlash f.Name) }) := by
  unfold wireFormatIndexArg
  rw [wireNormLoop_eq_map nfc toSlash fs.length fs 0 fs.length rfl
    (by omega)]
  simp [wireName]

theorem heapGet_heapSet_ne (h : SliceHeap) (r r' : Nat)
    (a : List FileInfo) (hne : r ≠ r') :
    heapGet (heapSet h r' a) r = heapGet h r := by
  show (h.arrays.set r' a).getD r [] = h.arrays.getD r []
  have := getD_set_ne (α := List FileInfo) h.arrays a
    (fun he => hne he.symm)
  simpa using this

theorem heapGet_heapAlloc (h : SliceHeap) (a : List FileInfo) (r : Nat)
    (hr : r < h.arrays.length) :
    heapGet (heapAlloc h a).1 r = heapGet h r := by
  show (h.arrays ++ [a]).getD r [] = h.arrays.getD r []
  simp only [List.getD_eq_getElem?_getD]
  rw [List.getElem?_append]
  simp [hr]

theorem heapNormLoop_frame (nfc toSlash : String → String) :
    ∀ (fuel : Nat) (h : SliceHeap) (myRef i n r : Nat), r ≠ myRef →
      heapGet (heapNormLoop nfc toSlash fuel h myRef i n) r =
        heapGet h r := by
  intro fuel
  induction fuel with
  | zero =>
      intro h myRef i n r hr
      simp only [heapNormLoop]
  | succ fuel ih =>
      intro h myRef i n r hr
      simp only [heapNormLoop]
      by_cases h1 : i < n
      · rw [if_pos h1]
        rw [ih _ myRef (i + 1) n r hr]
        exact heapGet_heapSet_ne h r myRef _ hr
      · rw [if_neg h1]

/-! ### Root-device-list lemmas for the device phases -/

theorem prepareDevicesPhase_root_ids (hostname : String)
    (myID : DeviceID) (cfg : Configuration) :
    ∀ id ∈ myID :: cfg.Devices.map (fun d => d.deviceID),
      id ∈ (prepareDevicesPhase hostname myID cfg).Devices.map
        (fun d => d.deviceID) := by
  intro id hid
  rw [prepareDevicesPhase_Devices]
  unfold sortDeviceConfigurations
  rw [((List.perm_insertionSort
    (fun a b : DeviceConfiguration => a.deviceID ≤ b.deviceID)
    _).map (fun d => d.deviceID)).mem_iff]
  cases hfind : GetDeviceConfiguration cfg myID with
  | some dc =>
      simp only [hfind]
      rcases List.mem_cons.mp hid with he | hm
      · rw [he]
        have hfind' : cfg.Devices.find?
            (fun d => d.deviceID == myID) = some dc := hfind
        have hmem := List.mem_of_find?_eq_some hfind'
        have hpred := List.find?_some hfind'
        exact List.mem_map.mpr ⟨dc, hmem, by simpa using hpred⟩
      · exact hm
  | none =>
      simp only [hfind, List.map_append]
      rcases List.mem_cons.mp hid with he | hm
      · rw [he]
        simp
      · exact List.mem_append_left _ hm

theorem prepareDevicesPhase_count (hostname : String) (myID : DeviceID)
    (cfg : Configuration)
    (hle : (cfg.Devices.map (fun d => d.deviceID)).count myID ≤ 1) :
    ((prepareDevicesPhase hostname myID cfg).Devices.map
      (fun d => d.deviceID)).count myID = 1 := by
  rw [prepareDevicesPhase_Devices]
  unfold sortDeviceConfigurations
  rw [((List.perm_insertionSort
    (fun a b : DeviceConfiguration => a.deviceID ≤ b.deviceID)
    _).map (fun d => d.deviceID)).count_eq]
  cases hfind : GetDeviceConfiguration cfg myID with
  | some dc =>
      simp only [hfind]
      have hfind' : cfg.Devices.find?
          (fun d => d.deviceID == myID) = some dc := hfind
      have hmem : myID ∈ cfg.Devices.map (fun d => d.deviceID) :=
        List.mem_map.mpr ⟨dc, List.mem_of_find?_eq_some hfind',
          by simpa using List.find?_some hfind'⟩
      have hpos : (cfg.Devices.map (fun d => d.deviceID)).count myID ≠ 0 := by
        rw [Ne, List.count_eq_zero]
        intro hnot
        exact hnot hmem
      omega
  | none =>
      simp only [hfind]
      have hfind' : cfg.Devices.find?
          (fun d => d.deviceID == myID) = none := hfind
      have hz : (cfg.Devices.map (fun d => d.deviceID)).count myID = 0 := by
        rw [List.count_eq_zero]
        intro hmem
        obtain ⟨d, hd, hdv⟩ := List.mem_map.mp hmem
        have := List.find?_eq_none.mp hfind' d hd
        simp [hdv] at this
      rw [List.map_append, List.count_append, hz]
      simp

/-- The folder-membership integrity properties established jointly by
the device and address phases, for an arbitrary intermediate
configuration. -/
theorem devices_phases_integrity (hostname : String) (myID : DeviceID)
    (M : Configuration) :
    ∀ f ∈ (prepareAddressesPhase
        (prepareDevicesPhase hostname myID M)).Folders,
      (∀ d ∈ f.Devices,
        d.deviceID ∈ (prepareAddressesPhase
          (prepareDevicesPhase hostname myID M)).Devices.map
            (fun n => n.deviceID)) ∧
      (f.Devices.map (fun d => d.deviceID)).Nodup ∧
      (f.Devices.map (fun d => d.deviceID)).count myID = 1 := by
  intro f hf
  rw [prepareAddressesPhase_Folders, prepareDevicesPhase_Folders] at hf
  obtain ⟨g, hg, rfl⟩ := List.mem_map.mp hf
  refine ⟨?_, folderDevicePipeline_nodup myID _ g.Devices,
    folderDevicePipeline_count_one myID _ g.Devices
      (List.mem_cons_self _ _)⟩
  intro d hd
  have hex := folderDevicePipeline_sound myID _ g.Devices d hd
  rw [prepareAddressesPhase_deviceIDs]
  exact prepareDevicesPhase_root_ids hostname myID M _ hex

theorem prePhases_Version (cfg : Configuration) :
    (prepareURPhase (prepareFolderIDPhase
      (prepareOptionsPhase cfg))).Version = cfg.Version := by
  rw [prepareURPhase_Version, prepareFolderIDPhase_Version,
    prepareOptionsPhase_Version]

theorem preMigration_Devices_of_current (hash : String → Option String)
    (cfg : Configuration) (hv : cfg.Version = 5) :
    (preparePasswordPhase hash (runMigrations (prepareURPhase
      (prepareFolderIDPhase (prepareOptionsPhase cfg))))).Devices =
      cfg.Devices := by
  have hrm : runMigrations (prepareURPhase (prepareFolderIDPhase
      (prepareOptionsPhase cfg))) =
        prepareURPhase (prepareFolderIDPhase (prepareOptionsPhase cfg)) :=
    runMigrations_fixed _ (by rw [prePhases_Version, hv])
  rw [preparePasswordPhase_Devices, hrm, prepareURPhase_Devices,
    prepareFolderIDPhase_Devices, prepareOptionsPhase_Devices]

/-! ### The claims -/

/-- C1: for a configuration at a schema version between 1 and 4, the
migration driver applies the steps strictly in increasing version
order — each bullet exhibits the run as the ordered composition of
exactly the remaining steps, none skipped or reordered — and `prepare`
leaves the configuration at exactly version 5.  For a configuration
already at version 5 no migration step runs (`runMigrations` is the
identity on it) and the version is unchanged by `prepare`. -/
theorem c1_migration_chain (hash : String → Option String)
    (hostname : String) (myID : DeviceID) (cfg : Configuration) :
    (cfg.Version = 1 →
      runMigrations cfg =
        convertV4V5 (convertV3V4 (convertV2V3 (convertV1V2 cfg)))) ∧
    (cfg.Version = 2 →
      runMigrations cfg = convertV4V5 (convertV3V4 (convertV2V3 cfg))) ∧
    (cfg.Version = 3 →
      runMigrations cfg = convertV4V5 (convertV3V4 cfg)) ∧
    (cfg.Version = 4 → runMigrations cfg = convertV4V5 cfg) ∧
    (cfg.Version = 5 →
      runMigrations cfg = cfg ∧
      (prepare hash hostname myID cfg).Version = cfg.Version) ∧
    (1 ≤ cfg.Version → cfg.Version ≤ 4 →
      (prepare hash hostname myID cfg).Version = 5) := by
  refine ⟨?_, ?_, ?_, ?_, ?_, ?_⟩
  · intro h
    simp [runMigrations, h, convertV1V2_Version, convertV2V3_Version,
      convertV3V4_Version]
  · intro h
    simp [runMigrations, h, convertV2V3_Version, convertV3V4_Version]
  · intro h
    simp [runMigrations, h, convertV3V4_Version]
  · intro h
    simp [runMigrations, h]
  · intro h
    refine ⟨runMigrations_fixed cfg h, ?_⟩
    rw [prepare_Version_eq_five hash hostname myID cfg (by omega)
      (by omega), h]
  · intro h1 h4
    exact prepare_Version_eq_five hash hostname myID cfg h1 (by omega)

/-- Witness for C1 at the concrete version-3 configuration: exactly the
3→4 and 4→5 steps run, in that order, and `prepare` ends at version
5. -/
theorem c1_migration_chain_witness :
    runMigrations versionThreeConfiguration =
      convertV4V5 (convertV3V4 versionThreeConfiguration) ∧
    (prepare (fun _ => none) "host" 7 versionThreeConfiguration).Version
      = 5 := by
  have h := c1_migration_chain (fun _ => none) "host" 7
    versionThreeConfiguration
  exact ⟨h.2.2.1 rfl, h.2.2.2.2.2 (by decide) (by decide)⟩

/-- C3, settled as a code bug, evaluated at the failing input
`rescanScrubConfiguration` (a version-3 document): `convertV3V4` does
copy the node-wide rescan interval (30) into the repository — the first
half of the claim holds — but it leaves the folder-embedded device
record's deprecated name ("foo") and address list fully intact, because
the scrub loop at usage.go lines 575-582 assigns the record to a local
variable BY VALUE, clears the fields on that copy, and discards it.
The claim (and the spec's 3→4 step, which matches the loop's evident
intent) says those fields are cleared. -/
theorem c3_scrub_divergence :
    ((convertV3V4 rescanScrubConfiguration).Deprecated_Repositories.map
      (fun r => r.RescanIntervalS) = [30]) ∧
    ((convertV3V4 rescanScrubConfiguration).Deprecated_Repositories.map
      (fun r => r.Deprecated_Nodes) =
      [[{ deviceID := 1, Deprecated_Name := "foo",
          Deprecated_Addresses := ["tcp://a:22000"] }]]) ∧
    ¬ (∀ r ∈ (convertV3V4
          rescanScrubConfiguration).Deprecated_Repositories,
        ∀ n ∈ r.Deprecated_Nodes,
          n.Deprecated_Name = "" ∧ n.Deprecated_Addresses = []) := by
  refine ⟨by decide, by decide, by decide⟩

/-- C5 counterexample: with every step succeeding except the final
rename, `Save` returns the rename error and the real file is NOT
replaced, and yet the "configuration saved" notification IS
published — refuting the claim that the notification is published only
after the temporary file has successfully replaced the real file. -/
theorem c5_counterexample :
    (Save renameFailEnv).realFileReplaced = false ∧
    (Save renameFailEnv).err = some "rename failed" ∧
    ¬ (Save renameFailEnv).configSavedPublished = false := by
  refine ⟨rfl, rfl, by decide⟩

/-- C5 amended: the early-failure half of the claim holds —
create/encode/write/close failures return that error, publish no
notification and leave the real file untouched — but on the rename
step the source publishes the notification unconditionally: once the
earlier steps succeed, `Save` publishes the notification and returns
the rename error, having replaced the real file iff the rename
succeeded. -/
theorem c5_save_notification (env : SaveEnv) :
    (env.createErr = none → env.encodeErr = none → env.writeErr = none →
     env.closeErr = none →
      Save env = { err := env.renameErr, configSavedPublished := true,
                   realFileReplaced := env.renameErr.isNone }) ∧
    (∀ e, env.createErr = some e →
      Save env = { err := some e, configSavedPublished := false,
                   realFileReplaced := false }) ∧
    (∀ e, env.createErr = none → env.encodeErr = some e →
      Save env = { err := some e, configSavedPublished := false,
                   realFileReplaced := false }) ∧
    (∀ e, env.createErr = none → env.encodeErr = none →
      env.writeErr = some e →
      Save env = { err := some e, configSavedPublished := false,
                   realFileReplaced := false }) ∧
    (∀ e, env.createErr = none → env.encodeErr = none →
      env.writeErr = none → env.closeErr = some e →
      Save env = { err := some e, configSavedPublished := false,
                   realFileReplaced := false }) := by
  refine ⟨?_, ?_, ?_, ?_, ?_⟩
  · intro h1 h2 h3 h4
    simp only [Save, h1, h2, h3, h4]
    cases h : env.renameErr <;> simp [h]
  · intro e h1
    simp [Save, h1]
  · intro e h1 h2
    simp [Save, h1, h2]
  · intro e h1 h2 h3
    simp [Save, h1, h2, h3]
  · intro e h1 h2 h3 h4
    simp [Save, h1, h2, h3, h4]

/-- Witness for C5's amended statement at the rename-failure
environment. -/
theorem c5_save_notification_witness :
    Save renameFailEnv =
      { err := some "rename failed", configSavedPublished := true,
        realFileReplaced := false } :=
  (c5_save_notification renameFailEnv).1 rfl rfl rfl rfl

/-- C6 counterexample at `badDefaultFields`: the unparseable int
default "x" makes `setDefaults` return an error, but the defaulting
phase of `New`/`Load` discards the returned error and yields the field
list with the int field still at its zero value and no failure signal
of any kind — construction and loading do NOT fail loudly. -/
theorem c6_counterexample :
    (setDefaults badDefaultFields).2 = some "x" ∧
    newDefaultingPhase badDefaultFields [] [] =
      (badDefaultFields, [], []) := by
  refine ⟨by decide, by decide⟩

/-- C6 amended: an unparseable numeric default causes `setDefaults` to
stop at that field and return the parse error, leaving the field (and
all later fields) at their current values; `New` and `Load` discard the
returned error, so they continue with the zero value instead of
failing. -/
theorem c6_defaults_error_ignored (n : Int) (tag : String)
    (post : List Field) (hbad : parseInt64 tag = none)
    (hne : tag.length ≠ 0) :
    setDefaults ({ val := .fint n, defaultTag := tag } :: post) =
      ({ val := .fint n, defaultTag := tag } :: post, some tag) ∧
    newDefaultingPhase ({ val := .fint n, defaultTag := tag } :: post)
      [] [] =
      ({ val := .fint n, defaultTag := tag } :: post, [], []) := by
  have happ : applyDefault { val := .fint n, defaultTag := tag } =
      .error tag := by
    unfold applyDefault
    rw [if_neg hne]
    simp [hbad]
  have hset : setDefaults ({ val := .fint n, defaultTag := tag } :: post)
      = ({ val := .fint n, defaultTag := tag } :: post, some tag) := by
    simp [setDefaults, happ]
  refine ⟨hset, ?_⟩
  unfold newDefaultingPhase
  rw [hset]
  rfl

/-- Witness for C6's amended statement at the concrete bad field
list. -/
theorem c6_defaults_error_ignored_witness :
    setDefaults badDefaultFields = (badDefaultFields, some "x") ∧
    newDefaultingPhase badDefaultFields [] [] =
      (badDefaultFields, [], []) :=
  c6_defaults_error_ignored 0 "x"
    [{ val := .fstr "", defaultTag := "hello" }] (by decide) (by decide)

/-- C9: on a wire-format connection, `Index`, `IndexUpdate` and
`Request` forward to the underlying connection only names first
rewritten to forward-slash separators (`filepath.ToSlash`, parameter
`toSlash`) and then normalized to Unicode NFC (`norm.NFC.String`,
parameter `nfc`), in that order: the forwarded file list is the input
list with every entry's name replaced by `nfc (toSlash name)` (all
other fields untouched), and the forwarded request name is
`nfc (toSlash name)`. -/
theorem c9_wire_normalization (nfc toSlash : String → String)
    (next : Connection) (folder name : String) (fs : List FileInfo)
    (offset size : Int) :
    (wireFormatConnection nfc toSlash next).index folder fs =
      next.index folder
        (fs.map (fun f => { f with Name := nfc (toSlash f.Name) })) ∧
    (wireFormatConnection nfc toSlash next).indexUpdate folder fs =
      next.indexUpdate folder
        (fs.map (fun f => { f with Name := nfc (toSlash f.Name) })) ∧
    (wireFormatConnection nfc toSlash next).request folder name offset
        size =
      next.request folder (nfc (toSlash name)) offset size := by
  refine ⟨?_, ?_, rfl⟩ <;>
    simp [wireFormatConnection, wireFormatIndexArg_eq_map]

/-- C10: `Index` and `IndexUpdate` never mutate the caller's `FileInfo`
slice.  At the heap level (Go slices as references into a heap of
arrays), the bodies allocate a fresh array, copy the input into it, and
rewrite names only through the fresh reference, so after the call the
array the caller's reference denotes is unchanged — every element of
the input slice is as before — and the reference forwarded to the
underlying connection is distinct from the caller's. -/
theorem c10_no_input_mutation (nfc toSlash : String → String)
    (h : SliceHeap) (fsRef : Nat) (hvalid : fsRef < h.arrays.length) :
    heapGet (indexBodyHeap nfc toSlash h fsRef).1 fsRef =
      heapGet h fsRef ∧
    heapGet (indexUpdateBodyHeap nfc toSlash h fsRef).1 fsRef =
      heapGet h fsRef ∧
    (indexBodyHeap nfc toSlash h fsRef).2 ≠ fsRef ∧
    (indexUpdateBodyHeap nfc toSlash h fsRef).2 ≠ fsRef := by
  have hne : fsRef ≠ h.arrays.length := by omega
  have hbase :
      heapGet (heapSet (heapAlloc h (List.replicate
        (heapGet h fsRef).length default)).1 h.arrays.length
          (heapGet h fsRef)) fsRef = heapGet h fsRef := by
    rw [heapGet_heapSet_ne _ _ _ _ hne]
    exact heapGet_heapAlloc h _ fsRef hvalid
  refine ⟨?_, ?_, Ne.symm hne, Ne.symm hne⟩ <;>
    · show heapGet (heapNormLoop nfc toSlash _ _ h.arrays.length 0 _)
        fsRef = heapGet h fsRef
      rw [heapNormLoop_frame nfc toSlash _ _ h.arrays.length 0 _ fsRef
        hne]
      exact hbase

/-- Witness for C10 at a concrete one-slice heap. -/
theorem c10_no_input_mutation_witness :
    heapGet (indexBodyHeap (fun s => s) (fun s => s)
      { arrays := [[{ Name := "a", rest := 0 }]] } 0).1 0 =
      [{ Name := "a", rest := 0 }] ∧
    (indexBodyHeap (fun s => s) (fun s => s)
      { arrays := [[{ Name := "a", rest := 0 }]] } 0).2 ≠ 0 := by
  have h := c10_no_input_mutation (fun s => s) (fun s => s)
    { arrays := [[{ Name := "a", rest := 0 }]] } 0 (by decide)
  exact ⟨h.1, h.2.2.1⟩

/-- C7: after `prepare`, every membership edge inside every folder
references a device id present in the (normalized) root device list —
edges referencing unknown devices have been removed, none retained —
and no two edges in the same folder reference the same device. -/
theorem c7_membership_integrity (hash : String → Option String)
    (hostname : String) (myID : DeviceID) (cfg : Configuration) :
    ∀ f ∈ (prepare hash hostname myID cfg).Folders,
      (∀ d ∈ f.Devices,
        d.deviceID ∈ (prepare hash hostname myID cfg).Devices.map
          (fun n => n.deviceID)) ∧
      (f.Devices.map (fun d => d.deviceID)).Nodup := by
  intro f hf
  have h := devices_phases_integrity hostname myID
    (preparePasswordPhase hash (runMigrations (prepareURPhase
      (prepareFolderIDPhase (prepareOptionsPhase cfg))))) f hf
  exact ⟨h.1, h.2.1⟩

/-- Witness for C7 at `folderEdgeConfiguration` (local id 7): the edge
to the unknown device 9 is gone, the duplicate edge to device 3 is
gone, and the surviving edges all reference root-list devices. -/
theorem c7_membership_integrity_witness :
    (∀ d ∈ ((prepare (fun _ => none) "host" 7
        folderEdgeConfiguration).Folders.getD 0
        zeroFolderConfiguration).Devices,
      d.deviceID ∈ (prepare (fun _ => none) "host" 7
        folderEdgeConfiguration).Devices.map (fun n => n.deviceID)) ∧
    (((prepare (fun _ => none) "host" 7
        folderEdgeConfiguration).Folders.getD 0
        zeroFolderConfiguration).Devices.map
          (fun d => d.deviceID)).Nodup := by
  have h := c7_membership_integrity (fun _ => none) "host" 7
    folderEdgeConfiguration
    ((prepare (fun _ => none) "host" 7
      folderEdgeConfiguration).Folders.getD 0 zeroFolderConfiguration)
    (by decide)
  exact h

/-- C2 counterexample: `prepare` never deduplicates the ROOT device
list.  In `duplicateLocalConfiguration` the local identity 7 is
declared twice; after `prepare` it still occurs twice in the root
device list, not exactly once as the claim requires. -/
theorem c2_counterexample :
    ((prepare (fun _ => none) "host" 7
      duplicateLocalConfiguration).Devices.map
        (fun d => d.deviceID)).count 7 = 2 ∧
    ¬ (((prepare (fun _ => none) "host" 7
      duplicateLocalConfiguration).Devices.map
        (fun d => d.deviceID)).count 7 = 1) := by
  refine ⟨by decide, by decide⟩

/-- C2 amended: after `prepare` the local identity occurs exactly once
in every folder's membership list, and occurs at least once in the
root device list.  It occurs exactly once in the root device list
provided the document is already at the current schema version (so no
migration step replaces the device list) and declared the local
identity at most once; the source never deduplicates the root list, so
a document declaring the local id twice keeps both entries (see the
counterexample). -/
theorem c2_local_device_occurrences (hash : String → Option String)
    (hostname : String) (myID : DeviceID) (cfg : Configuration) :
    (∀ f ∈ (prepare hash hostname myID cfg).Folders,
      (f.Devices.map (fun d => d.deviceID)).count myID = 1) ∧
    (myID ∈ (prepare hash hostname myID cfg).Devices.map
      (fun d => d.deviceID)) ∧
    (cfg.Version = 5 →
      (cfg.Devices.map (fun d => d.deviceID)).count myID ≤ 1 →
      ((prepare hash hostname myID cfg).Devices.map
        (fun d => d.deviceID)).count myID = 1) := by
  refine ⟨?_, ?_, ?_⟩
  · intro f hf
    exact (devices_phases_integrity hostname myID
      (preparePasswordPhase hash (runMigrations (prepareURPhase
        (prepareFolderIDPhase (prepareOptionsPhase cfg))))) f hf).2.2
  · show myID ∈ (prepareAddressesPhase (prepareDevicesPhase hostname
      myID _)).Devices.map (fun d => d.deviceID)
    rw [prepareAddressesPhase_deviceIDs]
    exact prepareDevicesPhase_root_ids hostname myID _ myID
      (List.mem_cons_self _ _)
  · intro hv hle
    show ((prepareAddressesPhase (prepareDevicesPhase hostname myID
      _)).Devices.map (fun d => d.deviceID)).count myID = 1
    rw [prepareAddressesPhase_deviceIDs]
    apply prepareDevicesPhase_count
    rw [preMigration_Devices_of_current hash cfg hv]
    exact hle

/-- Witness for C2's amended statement at `folderEdgeConfiguration`
(current version, local id 7 absent from the root list, one folder). -/
theorem c2_local_device_occurrences_witness :
    (((prepare (fun _ => none) "host" 7
        folderEdgeConfiguration).Folders.getD 0
        zeroFolderConfiguration).Devices.map
          (fun d => d.deviceID)).count 7 = 1 ∧
    (7 ∈ (prepare (fun _ => none) "host" 7
      folderEdgeConfiguration).Devices.map (fun d => d.deviceID)) ∧
    ((prepare (fun _ => none) "host" 7
      folderEdgeConfiguration).Devices.map
        (fun d => d.deviceID)).count 7 = 1 := by
  have h := c2_local_device_occurrences (fun _ => none) "host" 7
    folderEdgeConfiguration
  exact ⟨h.1 _ (by decide), h.2.1, h.2.2 (by decide) (by decide)⟩

/-! ### Association-list map lemmas for the restart analyzer -/

theorem lookupAL_insertAL {κ ν : Type} [DecidableEq κ]
    (m : List (κ × ν)) (k k' : κ) (v : ν) :
    lookupAL (insertAL m k v) k' =
      if k = k' then some v else lookupAL m k' := by
  induction m with
  | nil =>
      by_cases h : k = k' <;> simp [insertAL, lookupAL, h]
  | cons p ps ih =>
      by_cases hp : p.1 = k
      · simp only [insertAL, if_pos hp, lookupAL]
        by_cases h : k = k'
        · simp [h]
        · have hpk : ¬ (p.1 = k') := by
            rw [hp]
            exact h
          simp [h, hpk]
      · simp only [insertAL, if_neg hp, lookupAL, ih]
        by_cases hq : p.1 = k'
        · have hkk : ¬ (k = k') := by
            intro he
            apply hp
            rw [hq, he]
          simp [hq, hkk]
        · simp [hq]

theorem mem_keys_insertAL {κ ν : Type} [DecidableEq κ]
    (m : List (κ × ν)) (k0 k : κ) (v : ν) :
    k ∈ (insertAL m k0 v).map Prod.fst ↔
      k = k0 ∨ k ∈ m.map Prod.fst := by
  induction m with
  | nil => simp [insertAL]
  | cons p ps ih =>
      by_cases hp : p.1 = k0
      · have he : insertAL (p :: ps) k0 v = (k0, v) :: ps := by
          simp [insertAL, hp]
        rw [he]
        simp only [List.map_cons, List.mem_cons, hp]
        tauto
      · have he : insertAL (p :: ps) k0 v = p :: insertAL ps k0 v := by
          simp [insertAL, hp]
        rw [he]
        simp only [List.map_cons, List.mem_cons, ih]
        tauto

theorem keys_nodup_insertAL {κ ν : Type} [DecidableEq κ]
    (m : List (κ × ν)) (k : κ) (v : ν)
    (h : (m.map Prod.fst).Nodup) :
    ((insertAL m k v).map Prod.fst).Nodup := by
  induction m with
  | nil => simp [insertAL]
  | cons p ps ih =>
      simp only [List.map_cons, List.nodup_cons] at h
      by_cases hp : p.1 = k
      · simp only [insertAL, if_pos hp, List.map_cons, List.nodup_cons]
        refine ⟨?_, h.2⟩
        rw [← hp]
        exact h.1
      · simp only [insertAL, if_neg hp, List.map_cons, List.nodup_cons]
        refine ⟨?_, ih h.2⟩
        rw [mem_keys_insertAL]
        push_neg
        exact ⟨hp, h.1⟩

theorem mem_lookupAL {κ ν : Type} [DecidableEq κ] :
    ∀ (m : List (κ × ν)), (m.map Prod.fst).Nodup →
      ∀ p ∈ m, lookupAL m p.1 = some p.2 := by
  intro m
  induction m with
  | nil =>
      intro _ p hp
      exact absurd hp (List.not_mem_nil p)
  | cons q ps ih =>
      intro hnd p hp
      simp only [List.map_cons, List.nodup_cons] at hnd
      rcases List.mem_cons.mp hp with he | hp'
      · rw [he]
        simp [lookupAL]
      · have hne : ¬ (q.1 = p.1) := by
          intro he
          exact hnd.1 (he ▸ List.mem_map.mpr ⟨p, hp', rfl⟩)
        simp only [lookupAL, if_neg hne]
        exact ih hnd.2 p hp'

theorem lookupAL_eq_none_iff {κ ν : Type} [DecidableEq κ] :
    ∀ (m : List (κ × ν)) (k : κ),
      lookupAL m k = none ↔ k ∉ m.map Prod.fst := by
  intro m
  induction m with
  | nil => simp [lookupAL]
  | cons p ps ih =>
      intro k
      by_cases hp : p.1 = k
      · simp [lookupAL, hp]
      · have hk : ¬ (k = p.1) := fun he => hp he.symm
        simp [lookupAL, hp, ih, hk]

theorem foldl_insertAL_keys_nodup {α κ ν : Type} [DecidableEq κ]
    (key : α → κ) (val : α → ν) :
    ∀ (l : List α) (m : List (κ × ν)), (m.map Prod.fst).Nodup →
      ((l.foldl (fun m x => insertAL m (key x) (val x)) m).map
        Prod.fst).Nodup := by
  intro l
  induction l with
  | nil =>
      intro m hm
      simpa using hm
  | cons x xs ih =>
      intro m hm
      exact ih _ (keys_nodup_insertAL m _ _ hm)

theorem mem_keys_foldl_insertAL {α κ ν : Type} [DecidableEq κ]
    (key : α → κ) (val : α → ν) :
    ∀ (l : List α) (m : List (κ × ν)) (k : κ),
      (k ∈ (l.foldl (fun m x => insertAL m (key x) (val x)) m).map
        Prod.fst) ↔ (k ∈ m.map Prod.fst ∨ k ∈ l.map key) := by
  intro l
  induction l with
  | nil =>
      intro m k
      simp
  | cons x xs ih =>
      intro m k
      simp only [List.foldl_cons, List.map_cons, List.mem_cons]
      rw [ih, mem_keys_insertAL]
      tauto

theorem FolderMap_keys_nodup (cfg : Configuration) :
    ((FolderMap cfg).map Prod.fst).Nodup := by
  have h := foldl_insertAL_keys_nodup
    (fun r : FolderConfiguration => r.ID) (fun r => r) cfg.Folders []
    (by simp)
  exact h

theorem DeviceMap_mem_keys (cfg : Configuration) (k : DeviceID) :
    k ∈ (DeviceMap cfg).map Prod.fst ↔
      k ∈ cfg.Devices.map (fun d => d.deviceID) := by
  have h := mem_keys_foldl_insertAL
    (fun d : DeviceConfiguration => d.deviceID) (fun d => d)
    cfg.Devices [] k
  unfold DeviceMap
  rw [show (cfg.Devices.foldl (fun m n => insertAL m n.deviceID n)
    ([] : List (DeviceID × DeviceConfiguration))) =
    cfg.Devices.foldl (fun m x => insertAL m x.deviceID x) [] from rfl]
  simpa using h

/-- C8: `ChangeRequiresRestart` is a pure two-argument predicate (a
function of its two configuration snapshots, embedded as such); it
returns true when a folder present in the first configuration has been
erased from the second, otherwise-identical one, and false when the
two configurations differ only in the display name of a device present
in both. -/
theorem c8_restart_analyzer (cfrom : Configuration)
    (f : FolderConfiguration) (targetID : DeviceID) (newName : String)
    (hf : f ∈ cfrom.Folders)
    (htarget : targetID ∈ cfrom.Devices.map (fun d => d.deviceID)) :
    ChangeRequiresRestart cfrom
      { cfrom with Folders := cfrom.Folders.erase f } = true ∧
    ChangeRequiresRestart cfrom
      { cfrom with Devices := cfrom.Devices.map (fun d =>
          if d.deviceID = targetID then { d with Name := newName }
          else d) } = false := by
  constructor
  · have hc : cfrom.Folders.length ≠
        ({ cfrom with Folders := cfrom.Folders.erase f } :
          Configuration).Folders.length := by
      show cfrom.Folders.length ≠ (cfrom.Folders.erase f).length
      rw [List.length_erase_of_mem hf]
      have hpos : 0 < cfrom.Folders.length := List.length_pos_of_mem hf
      omega
    unfold ChangeRequiresRestart
    rw [if_pos hc]
  · have hc1 : ¬ (cfrom.Folders.length ≠
        ({ cfrom with Devices := cfrom.Devices.map (fun d =>
          if d.deviceID = targetID then { d with Name := newName }
          else d) } : Configuration).Folders.length) := fun h => h rfl
    have hmapeq : FolderMap { cfrom with
        Devices := cfrom.Devices.map (fun d =>
          if d.deviceID = targetID then { d with Name := newName }
          else d) } = FolderMap cfrom := rfl
    have hc2 : ¬ ((FolderMap cfrom).any (fun p =>
        decide ((lookupAL (FolderMap { cfrom with
          Devices := cfrom.Devices.map (fun d =>
            if d.deviceID = targetID then { d with Name := newName }
            else d) }) p.1).getD zeroFolderConfiguration ≠ p.2))
          = true) := by
      rw [hmapeq, List.any_eq_true]
      rintro ⟨p, hp, hdec⟩
      have hne := of_decide_eq_true hdec
      apply hne
      rw [mem_lookupAL (FolderMap cfrom) (FolderMap_keys_nodup cfrom)
        p hp]
      rfl
    have hids : ({ cfrom with Devices := cfrom.Devices.map (fun d =>
        if d.deviceID = targetID then { d with Name := newName }
        else d) } : Configuration).Devices.map (fun d => d.deviceID) =
          cfrom.Devices.map (fun d => d.deviceID) := by
      show (cfrom.Devices.map _).map _ = _
      rw [List.map_map]
      apply List.map_congr_left
      intro d _
      simp only [Function.comp]
      split <;> rfl
    have hc3 : ¬ ((DeviceMap cfrom).any (fun p =>
        decide (lookupAL (DeviceMap { cfrom with
          Devices := cfrom.Devices.map (fun d =>
            if d.deviceID = targetID then { d with Name := newName }
            else d) }) p.1 = none)) = true) := by
      rw [List.any_eq_true]
      rintro ⟨p, hp, hdec⟩
      have hnone := of_decide_eq_true hdec
      rw [lookupAL_eq_none_iff] at hnone
      apply hnone
      rw [DeviceMap_mem_keys, hids]
      rw [← DeviceMap_mem_keys]
      exact List.mem_map.mpr ⟨p, hp, rfl⟩
    have hc4 : ¬ (cfrom.Options ≠ ({ cfrom with
        Devices := cfrom.Devices.map (fun d =>
          if d.deviceID = targetID then { d with Name := newName }
          else d) } : Configuration).Options ∨
        cfrom.GUI ≠ ({ cfrom with
        Devices := cfrom.Devices.map (fun d =>
          if d.deviceID = targetID then { d with Name := newName }
          else d) } : Configuration).GUI) :=
      fun h => h.elim (fun h' => h' rfl) (fun h' => h' rfl)
    unfold ChangeRequiresRestart
    rw [if_neg hc1, if_neg hc2, if_neg hc3, if_neg hc4]

/-- Witness for C8 at `restartBaseConfiguration`: erasing its folder
requires a restart; renaming device 2 does not. -/
theorem c8_restart_analyzer_witness :
    ChangeRequiresRestart restartBaseConfiguration
      { restartBaseConfiguration with
        Folders := restartBaseConfiguration.Folders.erase
          (mkFolder "f" "/a" [mkEdge 1]) } = true ∧
    ChangeRequiresRestart restartBaseConfiguration
      { restartBaseConfiguration with
        Devices := restartBaseConfiguration.Devices.map (fun d =>
          if d.deviceID = 2 then { d with Name := "renamed" } else d) }
      = false := by
  have h := c8_restart_analyzer restartBaseConfiguration
    (mkFolder "f" "/a" [mkEdge 1]) 2 "renamed" (by decide) (by decide)
  exact h

/-! ### Folder-id collision computation for two empty-id folders -/

theorem string_length_eq_zero_iff (s : String) :
    s.length = 0 ↔ s = "" := by
  cases s with
  | mk data => simp [String.length, String.ext_iff]

theorem folderIDCheckLoop_two_defaults (f0 f1 : FolderConfiguration)
    (h0p : f0.Path ≠ "") (h1p : f1.Path ≠ "")
    (h0i : f0.ID = "") (h1i : f1.ID = "") :
    folderIDCheckLoop 2 [f0, f1] [] 0 0 =
      [{ f0 with ID := "default~1", Invalid := "duplicate folder ID" },
       { f1 with ID := "default~2", Invalid := "duplicate folder ID" }]
    := by
  have h0p' : ¬ (f0.Path.length = 0) := by
    rw [string_length_eq_zero_iff]
    exact h0p
  have h1p' : ¬ (f1.Path.length = 0) := by
    rw [string_length_eq_zero_iff]
    exact h1p
  have ht1 : toString (0 + 1 : Nat) = "1" := rfl
  have ht2 : toString (1 + 1 : Nat) = "2" := rfl
  have hs1 : "default" ++ "~" ++ "1" = "default~1" := rfl
  have hs2 : "default" ++ "~" ++ "2" = "default~2" := rfl
  simp [folderIDCheckLoop, h0p', h1p', h0i, h1i, List.lookup, ht1, ht2,
    hs1, hs2]

theorem prepare_Folders_IDs (hash : String → Option String)
    (hostname : String) (myID : DeviceID) (cfg : Configuration)
    (hv : cfg.Version = 5) :
    (prepare hash hostname myID cfg).Folders.map (fun f => f.ID) =
      (folderIDCheckLoop cfg.Folders.length cfg.Folders [] 0 0).map
        (fun f => f.ID) ∧
    (prepare hash hostname myID cfg).Folders.map (fun f => f.Invalid) =
      (folderIDCheckLoop cfg.Folders.length cfg.Folders [] 0 0).map
        (fun f => f.Invalid) := by
  have hrm : runMigrations (prepareURPhase (prepareFolderIDPhase
      (prepareOptionsPhase cfg))) =
        prepareURPhase (prepareFolderIDPhase (prepareOptionsPhase cfg)) :=
    runMigrations_fixed _ (by rw [prePhases_Version, hv])
  constructor <;>
  · show ((prepareAddressesPhase (prepareDevicesPhase hostname myID
      (preparePasswordPhase hash (runMigrations (prepareURPhase
        (prepareFolderIDPhase
          (prepareOptionsPhase cfg))))))).Folders.map _) = _
    rw [prepareAddressesPhase_Folders, prepareDevicesPhase_Folders,
      List.map_map]
    rw [show (preparePasswordPhase hash (runMigrations (prepareURPhase
      (prepareFolderIDPhase (prepareOptionsPhase cfg))))).Folders =
        folderIDCheckLoop cfg.Folders.length cfg.Folders [] 0 0 by
      rw [preparePasswordPhase_Folders, hrm, prepareURPhase_Folders]
      rfl]
    apply List.map_congr_left
    intro g _
    rfl

/-- C4 counterexample: at `twoEmptyIDFolderConfiguration` (two folders,
non-empty paths, empty ids, current version) `prepare` assigns the
identifiers "default~1" and "default~2" — NOT "default" and
"default~1" as the claim states: the source renames BOTH sides of the
collision (the first folder loses the plain identifier too). -/
theorem c4_counterexample :
    ((prepare (fun _ => none) "host" 7
      twoEmptyIDFolderConfiguration).Folders.map (fun f => f.ID)) =
      ["default~1", "default~2"] ∧
    ¬ (((prepare (fun _ => none) "host" 7
      twoEmptyIDFolderConfiguration).Folders.map (fun f => f.ID)).Perm
        ["default", "default~1"]) := by
  refine ⟨by decide, by decide⟩

/-- C4 amended: for every configuration at the current schema version
(below it the migration chain replaces the folder collection, so the
claim cannot speak of these folders) containing exactly two folders,
both with non-empty paths and empty identifiers, `prepare` assigns the
two folders the distinct identifiers "default~1" and "default~2", and
both remain present in the document, marked invalid with reason
"duplicate folder ID" rather than merged or dropped. -/
theorem c4_two_empty_folder_ids (hash : String → Option String)
    (hostname : String) (myID : DeviceID) (cfg : Configuration)
    (f0 f1 : FolderConfiguration) (hv : cfg.Version = 5)
    (hfl : cfg.Folders = [f0, f1]) (h0p : f0.Path ≠ "")
    (h1p : f1.Path ≠ "") (h0i : f0.ID = "") (h1i : f1.ID = "") :
    (prepare hash hostname myID cfg).Folders.map (fun f => f.ID) =
      ["default~1", "default~2"] ∧
    (prepare hash hostname myID cfg).Folders.map (fun f => f.Invalid) =
      ["duplicate folder ID", "duplicate folder ID"] := by
  have h := prepare_Folders_IDs hash hostname myID cfg hv
  rw [hfl] at h
  have hlen : ([f0, f1] : List FolderConfiguration).length = 2 := rfl
  rw [hlen] at h
  rw [folderIDCheckLoop_two_defaults f0 f1 h0p h1p h0i h1i] at h
  rw [h.1, h.2]
  exact ⟨rfl, rfl⟩

/-- Witness for C4's amended statement at the concrete two-folder
configuration. -/
theorem c4_two_empty_folder_ids_witness :
    (prepare (fun _ => none) "host" 7
      twoEmptyIDFolderConfiguration).Folders.map (fun f => f.ID) =
      ["default~1", "default~2"] ∧
    (prepare (fun _ => none) "host" 7
      twoEmptyIDFolderConfiguration).Folders.map (fun f => f.Invalid) =
      ["duplicate folder ID", "duplicate folder ID"] :=
  c4_two_empty_folder_ids (fun _ => none) "host" 7
    twoEmptyIDFolderConfiguration (mkFolder "" "/a" [])
    (mkFolder "" "/b" []) rfl rfl (by decide) (by decide) rfl rfl

end Syncthing
